import Mathlib

/-!
Verification development for the spec-eng dual-notation compiler and
graph/gap-analysis engine.

The definitions below are a shallow embedding of the Python sources
`spec_eng/models.py`, `spec_eng/graph.py`, `spec_eng/gaps.py` and
`spec_eng/dual_spec.py`.  Python `dict`s (insertion-ordered) are modelled as
association lists with first-occurrence key order; Python `set` operations
followed by `sorted(...)` are modelled by `pySortedSet`; Python string
methods used by the code (`lower`, substring `in`, `strip`, ...) are
modelled on ASCII text, which is the alphabet of every string the
programs manipulate.
-/

namespace SpecEng

/-! ### Python primitives -/

/-- Scans every suffix of the haystack for the needle as a prefix. -/
def containsAux (needle : List Char) : List Char → Bool
  | [] => needle.isPrefixOf []
  | c :: cs => needle.isPrefixOf (c :: cs) || containsAux needle cs

/-- Model of Python `needle in hay` substring containment. -/
def pyContains (hay needle : String) : Bool :=
  containsAux needle.data hay.data

/-- ASCII lowercase conversion of one character. -/
def pyCharLower (c : Char) : Char :=
  if 65 ≤ c.toNat ∧ c.toNat ≤ 90 then Char.ofNat (c.toNat + 32) else c

/-- Model of Python `str.lower()` (ASCII range, which covers every string
the analyzed code compares). -/
def pyLower (s : String) : String := String.mk (s.data.map pyCharLower)

/-- Lexicographic comparison of char lists by Unicode code point, the
order Python uses to compare strings. -/
def charListLe : List Char → List Char → Bool
  | [], _ => true
  | x :: xs, ys =>
      match ys with
      | [] => false
      | y :: ys =>
          if x.toNat < y.toNat then true
          else if y.toNat < x.toNat then false
          else charListLe xs ys

/-- Model of Python string `<=` (code-point lexicographic). -/
def pyStrLe (a b : String) : Bool := charListLe a.data b.data

/-- Ordered insertion with a boolean comparator. -/
def insertOrd {α : Type} (le : α → α → Bool) (a : α) : List α → List α
  | [] => [a]
  | b :: l => if le a b then a :: b :: l else b :: insertOrd le a l

/-- Insertion sort with a boolean comparator, modelling Python `sorted`. -/
def sortOrd {α : Type} (le : α → α → Bool) (l : List α) : List α :=
  l.foldr (insertOrd le) []

/-- Duplicate removal (membership-preserving), modelling the set part of
Python `sorted(set(l))`. -/
def pyDedup : List String → List String
  | [] => []
  | a :: l => if l.contains a then pyDedup l else a :: pyDedup l

/-- Model of Python `sorted(set(l))` for strings: the strictly increasing
enumeration of the elements of `l`. -/
def pySortedSet (l : List String) : List String :=
  sortOrd pyStrLe (pyDedup l)

/-- Association-list lookup, modelling Python `d.get(k)` / `d[k]`. -/
def dlookup {κ α : Type} [DecidableEq κ] (d : List (κ × α)) (k : κ) : Option α :=
  match d with
  | [] => none
  | (k', v) :: rest => if k' = k then some v else dlookup rest k

/-- Key membership, modelling Python `k in d`. -/
def dmem {κ α : Type} [DecidableEq κ] (d : List (κ × α)) (k : κ) : Bool :=
  (dlookup d k).isSome

/-- Model of Python `d[k] = v` on an insertion-ordered dict: replaces the
value in place when the key exists, appends otherwise. -/
def dictSet {κ α : Type} [DecidableEq κ] : List (κ × α) → κ → α → List (κ × α)
  | [], k, v => [(k, v)]
  | (k', v') :: rest, k, v =>
      if k' = k then (k, v) :: rest else (k', v') :: dictSet rest k v

/-- Model of Python `d.setdefault(k, []).append(v)` on an insertion-ordered
dict of lists. -/
def dictAppend {κ α : Type} [DecidableEq κ] :
    List (κ × List α) → κ → α → List (κ × List α)
  | [], k, v => [(k, [v])]
  | (k', vs) :: rest, k, v =>
      if k' = k then (k', vs ++ [v]) :: rest else (k', vs) :: dictAppend rest k v

/-! ### Data model (`models.py`) -/

/-- Embeds `models.Clause`: a single GIVEN/WHEN/THEN clause. -/
structure Clause where
  clause_type : String
  text : String
  line_number : Nat
deriving DecidableEq, Repr

/-- Embeds `models.Scenario` (fields used by the graph builder). -/
structure Scenario where
  title : String
  givens : List Clause
  whens : List Clause
  thens : List Clause
  source_file : Option String := none
  line_number : Nat := 0
deriving DecidableEq, Repr

/-- Embeds `models.ParseResult` (the `errors` list plays no role in graph
construction and is omitted). -/
structure ParseResult where
  scenarios : List Scenario
deriving DecidableEq, Repr

/-- Embeds `models.State`: a graph node. Python's tuple of source scenario
titles becomes a list. -/
structure State where
  label : String
  source_scenarios : List String := []
deriving DecidableEq, Repr

/-- Embeds `models.Transition`: a graph edge. -/
structure Transition where
  event : String
  from_state : String
  to_state : String
  source_scenario : Option String := none
deriving DecidableEq, Repr

/-- Embeds `models.GapType`. -/
inductive GapType where
  | DEAD_END
  | UNREACHABLE
  | MISSING_ERROR
  | CONTRADICTION
  | MISSING_NEGATIVE
deriving DecidableEq, Repr

/-- Embeds `models.Severity`. -/
inductive Severity where
  | HIGH
  | MEDIUM
  | LOW
deriving DecidableEq, Repr

/-- Embeds `models.Gap`. -/
structure Gap where
  gap_type : GapType
  severity : Severity
  description : String
  question : String
  states : List String := []
  transitions : List String := []
  triage_status : Option String := none
deriving DecidableEq, Repr

/-- Embeds `models.GraphModel`.  The `cycles` field is computed in the
source by the external `networkx` library (`nx.simple_cycles`) and is not
involved in any analyzed behavior, so it is not modelled. -/
structure GraphModel where
  states : List (String × State) := []
  transitions : List Transition := []
  entry_points : List String := []
  terminal_states : List String := []
deriving DecidableEq, Repr

/-! ### Graph builder (`graph.py`) -/

/-- Embeds `graph.extract_states_and_transitions`: GIVEN clauses give
precondition states, THEN clauses postcondition states, and every WHEN
event yields one transition per (given, then) pair. -/
def extract_states_and_transitions (scenario : Scenario) :
    List State × List Transition :=
  let given_labels := scenario.givens.map (·.text)
  let then_labels := scenario.thens.map (·.text)
  let states :=
    given_labels.map (fun label => State.mk label [scenario.title]) ++
      then_labels.map (fun label => State.mk label [scenario.title])
  let transitions :=
    scenario.whens.flatMap (fun when_clause =>
      given_labels.flatMap (fun given_label =>
        then_labels.map (fun then_label =>
          Transition.mk when_clause.text given_label then_label (some scenario.title))))
  (states, transitions)

/-- Embeds the state-merging loop body of `graph.build_graph`: a state
whose label is already present is merged by unioning (sorted,
deduplicated) the source-scenario tuples; a fresh label is appended. -/
def merge_one (d : List (String × State)) (state : State) :
    List (String × State) :=
  match dlookup d state.label with
  | some existing =>
      dictSet d state.label
        (State.mk state.label
          (pySortedSet (existing.source_scenarios ++ state.source_scenarios)))
  | none => dictSet d state.label state

/-- Embeds the state-merging loop of `graph.build_graph` over one
scenario's extracted states. -/
def mergeStates (all_states : List (String × State)) (states : List State) :
    List (String × State) :=
  states.foldl merge_one all_states

/-- Embeds `graph.build_graph`: folds every scenario's states and
transitions together, then computes entry points (`sorted(given_labels -
then_labels)`) and terminal states (`sorted(then_labels - given_labels)`)
from the aggregate transition set. -/
def build_graph (parse_result : ParseResult) : GraphModel :=
  let step := fun (acc : List (String × State) × List Transition) scenario =>
    (mergeStates acc.1 (extract_states_and_transitions scenario).1,
     acc.2 ++ (extract_states_and_transitions scenario).2)
  let folded := parse_result.scenarios.foldl step ([], [])
  let all_states := folded.1
  let all_transitions := folded.2
  let then_labels := all_transitions.map (·.to_state)
  let given_labels := all_transitions.map (·.from_state)
  let entry_points :=
    pySortedSet (given_labels.filter (fun s => !then_labels.contains s))
  let terminal_states :=
    pySortedSet (then_labels.filter (fun s => !given_labels.contains s))
  GraphModel.mk all_states all_transitions entry_points terminal_states

/-! ### Gap analyzer (`gaps.py`)

Each detector in the source iterates over candidates, builds the gap's
description string, and skips the gap (`continue`) when that description
is a key of the `triaged` dict.  This is modelled with one candidate
function per detector plus the shared `suppress` step, which drops a
candidate exactly when its description is triaged — observationally the
same point in the loop, since the description inspected by the source is
the one stored in the appended `Gap`. -/

/-- Model of Python `desc in triaged` on the triage dict. -/
def isTriaged (triaged : List (String × String)) (desc : String) : Bool :=
  dmem triaged desc

/-- Shared triage-suppression step of every detector. -/
def suppress (triaged : List (String × String)) : Option Gap → Option Gap
  | none => none
  | some gap => if isTriaged triaged gap.description then none else some gap

/-- Candidate gap of `gaps._find_dead_ends` for one state label: a state
with no outbound transitions that is some transition's target. -/
def dead_end_candidate (graph : GraphModel) (label : String) : Option Gap :=
  let outbound := graph.transitions.map (·.from_state)
  if !outbound.contains label && (graph.transitions.map (·.to_state)).contains label then
    some { gap_type := .DEAD_END
           severity := .MEDIUM
           description := s!"State \"{label}\" has no outbound transitions"
           question := "Is this an intentional terminal state?"
           states := [label] }
  else none

/-- Embeds `gaps._find_dead_ends`. -/
def find_dead_ends (graph : GraphModel) (triaged : List (String × String)) :
    List Gap :=
  (graph.states.map Prod.fst).filterMap
    (fun label => suppress triaged (dead_end_candidate graph label))

/-- Candidate gap of `gaps._find_unreachable` for one state label: no
inbound transition, not an entry point, and (inner `continue`) not used as
a transition source either. -/
def unreachable_candidate (graph : GraphModel) (label : String) : Option Gap :=
  let inbound := graph.transitions.map (·.to_state)
  if !inbound.contains label && !graph.entry_points.contains label then
    if (graph.transitions.map (·.from_state)).contains label then none
    else
      some { gap_type := .UNREACHABLE
             severity := .HIGH
             description := s!"State \"{label}\" has no inbound transitions from any entry point"
             question := "How does the system reach this state?"
             states := [label] }
  else none

/-- Embeds `gaps._find_unreachable`. -/
def find_unreachable (graph : GraphModel) (triaged : List (String × String)) :
    List Gap :=
  (graph.states.map Prod.fst).filterMap
    (fun label => suppress triaged (unreachable_candidate graph label))

/-- Embeds the `state_events` grouping shared by
`gaps._find_missing_error_transitions` and `gaps._find_missing_negatives`:
`state_events.setdefault(t.from_state, []).append(t.event)` over the
transitions, keys in first-occurrence order. -/
def state_events (graph : GraphModel) : List (String × List String) :=
  graph.transitions.foldl (fun d t => dictAppend d t.from_state t.event) []

/-- Model of `"error" in e.lower() or "fail" in e.lower() or "invalid" in
e.lower()` from `gaps._find_missing_error_transitions`. -/
def has_error_word (e : String) : Bool :=
  pyContains (pyLower e) "error" || pyContains (pyLower e) "fail" ||
    pyContains (pyLower e) "invalid"

/-- Candidate gap of `gaps._find_missing_error_transitions` for one
(from-state, outbound events) group. -/
def missing_error_candidate (state : String) (events : List String) : Option Gap :=
  let has_error := events.any has_error_word
  if !has_error && decide (2 ≤ events.length) then
    let n := events.length
    some { gap_type := .MISSING_ERROR
           severity := .LOW
           description := s!"State \"{state}\" handles {n} events but has no error transition"
           question := s!"What happens when a {state} encounters an error?"
           states := [state]
           transitions := events }
  else none

/-- Embeds `gaps._find_missing_error_transitions`. -/
def find_missing_error_transitions (graph : GraphModel)
    (triaged : List (String × String)) : List Gap :=
  (state_events graph).filterMap
    (fun kv => suppress triaged (missing_error_candidate kv.1 kv.2))

/-- Embeds the `groups` dict of `gaps._find_contradictions`: transitions
grouped by `(from_state, event)` in first-occurrence key order. -/
def transition_groups (graph : GraphModel) :
    List ((String × String) × List Transition) :=
  graph.transitions.foldl
    (fun d t => dictAppend d (t.from_state, t.event) t) []

/-- Embeds the comprehension `[t.source_scenario for t in transitions if
t.source_scenario]` of `gaps._find_contradictions`: Python truthiness
drops both `None` and the empty string. -/
def truthy_source_scenarios (transitions : List Transition) : List String :=
  transitions.filterMap (fun t =>
    match t.source_scenario with
    | some s => if s = "" then none else some s
    | none => none)

/-- Candidate gap of `gaps._find_contradictions` for one
((from-state, event), transitions) group.  `to_states` is the Python set
of targets. -/
def contradiction_candidate (key : String × String)
    (transitions : List Transition) : Option Gap :=
  let from_state := key.1
  let event := key.2
  let to_states := pySortedSet (transitions.map (·.to_state))
  if decide (1 < to_states.length) then
    let n := to_states.length
    let scenarios := truthy_source_scenarios transitions
    some { gap_type := .CONTRADICTION
           severity := .HIGH
           description := s!"Contradiction: \"{from_state}\" + \"{event}\" leads to {n} different outcomes"
           question := "These scenarios have the same precondition and event but different outcomes. Is there a missing condition?"
           states := [from_state] ++ to_states
           transitions := scenarios.map (fun s => s!"{event} (from {s})") }
  else none

/-- Embeds `gaps._find_contradictions`. -/
def find_contradictions (graph : GraphModel) (triaged : List (String × String)) :
    List Gap :=
  (transition_groups graph).filterMap
    (fun kv => suppress triaged (contradiction_candidate kv.1 kv.2))

/-- Model of the negative-word test in `gaps._find_missing_negatives`. -/
def has_negative_word (e : String) : Bool :=
  pyContains (pyLower e) "fail" || pyContains (pyLower e) "invalid" ||
    pyContains (pyLower e) "error" || pyContains (pyLower e) "reject" ||
    pyContains (pyLower e) "deny" || pyContains (pyLower e) "not"

/-- Candidate gap of `gaps._find_missing_negatives` for one (from-state,
outbound events) group. -/
def missing_negative_candidate (state : String) (events : List String) :
    Option Gap :=
  if events.any has_negative_word then none
  else
    let suggestions := events.flatMap (fun event =>
      [s!"What happens when {event} fails?",
       s!"What happens when {event} with invalid data?"])
    some { gap_type := .MISSING_NEGATIVE
           severity := .MEDIUM
           description := s!"State \"{state}\" only has positive scenarios. Missing negative cases."
           question := String.intercalate "\n" (suggestions.take 3)
           states := [state] }

/-- Embeds `gaps._find_missing_negatives`. -/
def find_missing_negatives (graph : GraphModel)
    (triaged : List (String × String)) : List Gap :=
  (state_events graph).filterMap
    (fun kv => suppress triaged (missing_negative_candidate kv.1 kv.2))

/-- Embeds `gaps.analyze_gaps`: the concatenation of the five detectors
(`triaged = None` in the source defaults to the empty dict, modelled by
passing `[]`). -/
def analyze_gaps (graph : GraphModel) (triaged : List (String × String)) :
    List Gap :=
  find_dead_ends graph triaged ++ find_unreachable graph triaged ++
    find_missing_error_transitions graph triaged ++
    find_contradictions graph triaged ++ find_missing_negatives graph triaged

/-! ### Dual-spec compiler (`dual_spec.py`): values and IR -/

/-- A Python value as it appears in step argument dicts: the booleans,
integers and strings the DAL value grammar produces, or any other Python
object (`other` keeps its `type(v).__name__` and its `str(v)` rendering,
the only two observations the analyzed code makes of such values). -/
inductive PyValue where
  | bool (b : Bool)
  | int (n : Int)
  | str (s : String)
  | other (typeName strRepr : String)
deriving DecidableEq, Repr

/-- An insertion-ordered Python dict of values. -/
abbrev PyDict := List (String × PyValue)

/-- Model of Python `str(value)`. -/
def pyStr : PyValue → String
  | .bool b => if b then "True" else "False"
  | .int n => toString n
  | .str s => s
  | .other _ r => r

/-- Model of Python truthiness for the values above (used by `or` chains
and `if t.source_scenario:`-style tests in the source). -/
def pyTruthy : PyValue → Bool
  | .bool b => b
  | .int n => n != 0
  | .str s => s != ""
  | .other _ _ => true

/-- Embeds `dual_spec.StepIR`. -/
structure StepIR where
  kind : String
  symbol : String
  args : PyDict
deriving DecidableEq, Repr, Inhabited

/-- Embeds `dual_spec.ScenarioIR`. -/
structure ScenarioIR where
  name : String
  imports : List String
  givens : List StepIR
  whens : List StepIR
  thens : List StepIR
deriving DecidableEq, Repr, Inhabited

/-- Embeds `dual_spec.FeatureIR`. -/
structure FeatureIR where
  feature_id : String
  scenarios : List ScenarioIR
deriving DecidableEq, Repr, Inhabited

/-- Exceptions of the analyzed code: `DualSpecError`, a dict `KeyError`,
and `TypeError` (raised by `json.dumps` on unserializable values). -/
inductive PyErr where
  | dualSpecError (msg : String)
  | keyError (key : String)
  | typeError (msg : String)
deriving DecidableEq, Repr

/-! ### Dual-spec compiler: templates, patterns and the vocabulary

The source stores GWT render templates as Python format strings with
`{name}` placeholders and match patterns as compiled regexes.  The model
carries both pre-parsed: a `Template` is the alternation-free sequence of
literal runs and placeholders of the format string, and a `Rex` is the
anchored sequence of literal runs and lazy named groups `(?P<name>.+?)` of
the regex.  The modelled fragment assumes literal runs contain none of the
regex metacharacters `| + * ( ) ? [ ] { }` (other than a `.`, whose
escaping the source's template/pattern conversions handle), which covers
the vocabulary files the repository ships and every vocabulary used in a
theorem below. -/

/-- One piece of a render/format template. -/
inductive TPart where
  | lit (s : String)
  | ph (name : String)
deriving DecidableEq, Repr

/-- A render/format template: `"GIVEN {file} exists."` becomes
`[.lit "GIVEN ", .ph "file", .lit " exists."]`. -/
abbrev Template := List TPart

/-- One piece of a match pattern: a literal run or a lazy named group
`(?P<name>.+?)` (which matches one or more arbitrary characters,
as few as possible). -/
inductive RexPart where
  | lit (s : String)
  | group (name : String)
deriving DecidableEq, Repr

/-- An anchored (`fullmatch`) match pattern. -/
abbrev Rex := List RexPart

/-- Embeds `dual_spec.ArgSpec`. -/
structure ArgSpec where
  name : String
  type_name : String
deriving DecidableEq, Repr

/-- Embeds one entry of the vocab's `types` table: `kind` is the entry's
`kind` key, `pattern` models `re.fullmatch` of its string pattern as a
predicate, `values` the `values` list of an enum type. -/
structure TypeSpec where
  kind : Option String
  pattern : Option (String → Bool)
  values : List PyValue

/-- Embeds one mapping of a vocab entry's `reason_by_match` list. -/
structure ReasonMap where
  match_index : Option Int
  reason : Option PyValue
deriving DecidableEq, Repr

/-- Embeds one rule of a vocab entry's `derive_args_from_context` list:
`derive` maps each target argument to its source (a string naming an
argument/context entry/derivation, or any other value). -/
structure DeriveRule where
  when_match_group_present : Option String
  derive : PyDict
deriving DecidableEq, Repr

/-- Embeds one entry of the vocab's `derivations` table. -/
structure Derivation where
  transform : Option String
  format : Option Template
deriving DecidableEq, Repr

/-- Embeds `dual_spec.VocabEntry`.  `gwt_patterns` holds the compiled
patterns together with their texts (`gwt_pattern_texts` in the source,
recovered structurally where the source inspects the text). -/
structure VocabEntry where
  category : String
  symbol : String
  args : List ArgSpec
  gwt_patterns : List Rex
  gwt_render : Template
  dal_render : String
  default_args : PyDict
  derive_rules : List DeriveRule
  reason_by_match : List ReasonMap

/-- Embeds `dual_spec.Vocab` (the `raw`/`lints` fields feed only the
linter, which no claim touches; `entries` holds the facts, actions and
expectations in insertion order). -/
structure Vocab where
  types : List (String × TypeSpec)
  derivations : List (String × Derivation)
  gwt_keywords : List (String × String)
  entries : List VocabEntry

/-- Embeds the `entries_by_kind` lookup structure (per-kind lists in
insertion order). -/
def entries_by_kind (vocab : Vocab) (kind : String) : List VocabEntry :=
  vocab.entries.filter (fun e => e.category == kind)

/-- Embeds the `entries_by_symbol_kind` dict lookup
(`vocab.entries_by_symbol_kind.get((kind, symbol))`); `load_vocab`
guarantees at most one entry per (kind, symbol) pair. -/
def entries_by_symbol_kind (vocab : Vocab) (kind symbol : String) :
    Option VocabEntry :=
  vocab.entries.find? (fun e => e.category == kind && e.symbol == symbol)

/-- Well-formedness `load_vocab` guarantees of its result: (category,
symbol) pairs are unique and every entry's category is one of the three
step kinds. -/
def Vocab.WF (vocab : Vocab) : Prop :=
  (vocab.entries.map (fun e => (e.category, e.symbol))).Nodup ∧
    ∀ e ∈ vocab.entries, e.category ∈ ["fact", "action", "expectation"]

/-- Embeds `dual_spec._build_regex_from_render`: the template's literal
text is escaped (matched literally) and each `{name}` placeholder of a
declared argument becomes the group `(?P<name>.+?)`; placeholders of
undeclared names stay literal text. -/
def build_regex_from_render (template : Template) (args : List ArgSpec) : Rex :=
  template.map (fun part =>
    match part with
    | .lit s => RexPart.lit s
    | .ph name =>
        if (args.map (·.name)).contains name then RexPart.group name
        else RexPart.lit ("\x7b" ++ name ++ "\x7d"))

/-- Embeds the entry construction of `dual_spec._build_vocab_entry`: the
explicit match patterns plus the render-derived pattern appended last. -/
def mkVocabEntry (kind symbol : String) (args : List ArgSpec)
    (gwt_match : List Rex) (gwt_render : Template) (dal_render : String)
    (default_args : PyDict := []) (derive_rules : List DeriveRule := [])
    (reason_by_match : List ReasonMap := []) : VocabEntry :=
  { category := kind
    symbol := symbol
    args := args
    gwt_patterns := gwt_match ++ [build_regex_from_render gwt_render args]
    gwt_render := gwt_render
    dal_render := dal_render
    default_args := default_args
    derive_rules := derive_rules
    reason_by_match := reason_by_match }

/-! ### Dual-spec compiler: Python string helpers -/

/-- ASCII uppercase conversion of one character. -/
def pyCharUpper (c : Char) : Char :=
  if 97 ≤ c.toNat ∧ c.toNat ≤ 122 then Char.ofNat (c.toNat - 32) else c

/-- Model of Python `str.strip()` (ASCII whitespace). -/
def pyStrip (s : String) : String :=
  String.mk (((s.data.dropWhile Char.isWhitespace).reverse.dropWhile
    Char.isWhitespace).reverse)

/-- Model of Python `str.rstrip()` (ASCII whitespace). -/
def pyRstrip (s : String) : String :=
  String.mk ((s.data.reverse.dropWhile Char.isWhitespace).reverse)

/-- Model of Python `str.capitalize()`: first character uppercased, the
rest lowercased. -/
def pyCapitalize (s : String) : String :=
  match s.data with
  | [] => ""
  | c :: cs => String.mk (pyCharUpper c :: cs.map pyCharLower)

/-- Model of Python `str.startswith`. -/
def pyStartsWith (s pre : String) : Bool := pre.data.isPrefixOf s.data

/-- Model of Python `str.endswith`. -/
def pyEndsWith (s suf : String) : Bool := suf.data.isSuffixOf s.data

/-- Model of Python `l.split(sep)` for a single-character separator. -/
def splitOnChar (sep : Char) : List Char → List (List Char)
  | [] => [[]]
  | c :: rest =>
      let r := splitOnChar sep rest
      if c = sep then [] :: r
      else
        match r with
        | h :: t => (c :: h) :: t
        | [] => [[c]]

/-- Model of Python `str.splitlines()` for `\n`-separated text (the only
line separator the analyzed code emits): a trailing newline does not open
an extra empty line. -/
def pySplitlines (s : String) : List String :=
  if s = "" then []
  else
    let parts := (splitOnChar '\n' s.data).map String.mk
    if pyEndsWith s "\n" then parts.dropLast else parts

/-- Model of Python `str.replace("_", " ")` (single-character case). -/
def pyReplaceChar (s : String) (a b : Char) : String :=
  String.mk (s.data.map (fun c => if c = a then b else c))

/-- Model of one `.lstrip(";")` call. -/
def pyLstripSemis (s : String) : String :=
  String.mk (s.data.dropWhile (fun c => c = ';'))

/-- ASCII character classes used by the source's regexes. -/
def isLowerAscii (c : Char) : Bool := 97 ≤ c.toNat ∧ c.toNat ≤ 122

/-- Uppercase ASCII letter test. -/
def isUpperAscii (c : Char) : Bool := 65 ≤ c.toNat ∧ c.toNat ≤ 90

/-- ASCII digit test. -/
def isDigitAscii (c : Char) : Bool := 48 ≤ c.toNat ∧ c.toNat ≤ 57

/-- ASCII letter-or-digit test (`[A-Za-z0-9]`). -/
def isAlphaNumAscii (c : Char) : Bool :=
  isLowerAscii c || isUpperAscii c || isDigitAscii c

/-- Replaces every maximal run of characters outside `[a-z0-9]` by one
separator character, modelling `re.sub(r"[^a-z0-9]+", sep, ...)` (which
also makes the follow-up run-collapsing `re.sub` of the source a no-op). -/
def subRunsGo (sep : Char) (inRun : Bool) : List Char → List Char
  | [] => []
  | c :: cs =>
      if isLowerAscii c || isDigitAscii c then c :: subRunsGo sep false cs
      else if inRun then subRunsGo sep true cs
      else sep :: subRunsGo sep true cs

/-- Entry point of `subRunsGo`. -/
def subNonAlnum (sep : Char) (cs : List Char) : List Char :=
  subRunsGo sep false cs

/-- Model of Python `str.strip(ch)` for one character. -/
def stripChar (ch : Char) (cs : List Char) : List Char :=
  ((cs.dropWhile (· = ch)).reverse.dropWhile (· = ch)).reverse

/-- Embeds `dual_spec._slugify_kebab`. -/
def slugify_kebab (value : String) : String :=
  let cs := stripChar '-' (subNonAlnum '-' (pyLower value).data)
  if cs.isEmpty then "feature" else String.mk cs

/-- Embeds `dual_spec._slug_to_feature_id`. -/
def slug_to_feature_id (slug : String) : String :=
  let cs := stripChar '_' (subNonAlnum '_' (pyLower slug).data)
  if cs.isEmpty then "feature" else String.mk cs

/-- Embeds `dual_spec._slug_to_scenario_name`. -/
def slug_to_scenario_name (value : String) : String :=
  let cs := stripChar '_' (subNonAlnum '_' (pyLower value).data)
  if cs.isEmpty then "scenario" else String.mk cs

/-! ### Dual-spec compiler: error-propagating list combinators

`Except`-monadic folds written as plain structural recursions so that
kernel reduction (and hence `decide`/`rfl` on concrete programs) works. -/

/-- Maps a fallible function over a list, stopping at the first error. -/
def exceptMapM {ε α β : Type} (f : α → Except ε β) : List α → Except ε (List β)
  | [] => .ok []
  | a :: l =>
      match f a with
      | .ok b =>
          match exceptMapM f l with
          | .ok bs => .ok (b :: bs)
          | .error e => .error e
      | .error e => .error e

/-- Folds a fallible function over a list, stopping at the first error. -/
def exceptFoldl {ε σ α : Type} (f : σ → α → Except ε σ) :
    σ → List α → Except ε σ
  | s, [] => .ok s
  | s, a :: l =>
      match f s a with
      | .ok s' => exceptFoldl f s' l
      | .error e => .error e

/-- Sets a key only when absent, modelling `d.setdefault(k, v)`. -/
def dictSetDefault (d : PyDict) (k : String) (v : PyValue) : PyDict :=
  if dmem d k then d else dictSet d k v

/-- Removes a key, modelling `del d[k]`. -/
def dictDel (d : PyDict) (k : String) : PyDict :=
  d.filter (fun kv => kv.1 != k)

/-- Merges two dicts, modelling `{**a, **b}` (keys of `a` first, values of
`b` overriding in place). -/
def dictMerge (a b : PyDict) : PyDict :=
  b.foldl (fun d kv => dictSet d kv.1 kv.2) a

/-! ### Dual-spec compiler: templates and pattern matching -/

/-- Placeholder names of a template, modelling the
`re.findall(r"{([a-zA-Z_][a-zA-Z0-9_]*)}", template)` scans. -/
def template_placeholders (template : Template) : List String :=
  template.filterMap (fun part =>
    match part with
    | .ph name => some name
    | .lit _ => none)

/-- Literal text of a template (what `template.format` returns when a
`KeyError` makes `_render_gwt_step` fall back to the raw template). -/
def template_text (template : Template) : String :=
  String.join (template.map (fun part =>
    match part with
    | .lit s => s
    | .ph name => "\x7b" ++ name ++ "\x7d"))

/-- Model of Python `template.format(**args)`: every placeholder is
replaced by `str` of its value; a missing key is the `KeyError` case
(`none`). -/
def format_template (template : Template) (args : PyDict) : Option String :=
  match template with
  | [] => some ""
  | .lit s :: rest => (format_template rest args).map (fun r => s ++ r)
  | .ph name :: rest =>
      match dlookup args name with
      | some v => (format_template rest args).map (fun r => pyStr v ++ r)
      | none => none

/-- True when some literal run of the pattern contains the character
(modelling the source's `c in pattern_text` checks on regex text, where
group syntax `(?P<name>.+?)` separately accounts for `( ? P < > . + `). -/
def rexHasCharInLit (pattern : Rex) (c : Char) : Bool :=
  pattern.any (fun part =>
    match part with
    | .lit s => s.data.contains c
    | .group _ => false)

/-- True when the pattern has a named group. -/
def rexHasGroup (pattern : Rex) : Bool :=
  pattern.any (fun part =>
    match part with
    | .group _ => true
    | .lit _ => false)

/-- Embeds `dual_spec._pattern_to_template`: strips the anchors, rejects
alternation (a `|` in the text), turns groups into placeholders and
unescapes the literal text. -/
def pattern_to_template (pattern : Rex) : Option Template :=
  if rexHasCharInLit pattern '|' then none
  else
    some (pattern.map (fun part =>
      match part with
      | .lit s => TPart.lit s
      | .group name => TPart.ph name))

/-- Embeds `dual_spec._regex_literal_to_text`: `none` when the pattern
text contains group syntax, alternation or a quantifier (`(?P<`, `|`,
`+`, `*` — any group contributes both `(?P<` and the `+` of `.+?`),
otherwise the unescaped literal text. -/
def regex_literal_to_text (pattern : Rex) : Option String :=
  if rexHasGroup pattern || rexHasCharInLit pattern '|' ||
      rexHasCharInLit pattern '+' || rexHasCharInLit pattern '*' then none
  else
    some (String.join (pattern.map (fun part =>
      match part with
      | .lit s => s
      | .group _ => "")))

/-- All nonempty splits of a character list, shortest prefix first. -/
def splitsNE (cs : List Char) : List (List Char × List Char) :=
  (List.range cs.length).map (fun i => (cs.take (i + 1), cs.drop (i + 1)))

/-- Anchored match of a pattern against a character list, modelling
`pattern.fullmatch(line)` for the modelled fragment and returning the
named groups in pattern order.  A lazy group `(?P<name>.+?)` takes the
shortest nonempty prefix that lets the rest of the pattern match, which
is exactly Python's lazy backtracking order. -/
def rexMatch : Rex → List Char → Option (List (String × String))
  | [], cs => if cs.isEmpty then some [] else none
  | .lit s :: rest, cs =>
      if s.data.isPrefixOf cs then rexMatch rest (cs.drop s.data.length)
      else none
  | .group name :: rest, cs =>
      (splitsNE cs).findSome? (fun pre_suf =>
        (rexMatch rest pre_suf.2).map
          (fun groups => (name, String.mk pre_suf.1) :: groups))

/-! ### Dual-spec compiler: renderers -/

/-- Embeds `dual_spec._render_value`: booleans as `true`/`false`,
integers as-is, strings double-quoted with backslash/quote escaping, and
a `DualSpecError` for any other value type. -/
def render_value (value : PyValue) : Except PyErr String :=
  match value with
  | .bool b => .ok (if b then "true" else "false")
  | .int n => .ok (toString n)
  | .str s =>
      let escaped := String.mk (s.data.flatMap (fun c =>
        if c = '\\' then ['\\', '\\']
        else if c = '"' then ['\\', '"']
        else [c]))
      .ok ("\"" ++ escaped ++ "\"")
  | .other typeName _ =>
      .error (.dualSpecError ("Unsupported DAL arg value type: " ++ typeName))

/-- Embeds `dual_spec._ordered_args`: the vocabulary's declared argument
order first, then the remaining argument names alphabetically. -/
def ordered_args (entry : VocabEntry) (args : PyDict) : PyDict :=
  let first := entry.args.filterMap (fun spec =>
    match dlookup args spec.name with
    | some v => some (spec.name, v)
    | none => none)
  let seen := first.map Prod.fst
  let rest := (sortOrd pyStrLe (args.map Prod.fst)).filterMap (fun key =>
    if seen.contains key then none
    else
      match dlookup args key with
      | some v => some (key, v)
      | none => none)
  first ++ rest

/-- The step-kind-to-DAL-keyword dict of `dual_spec._render_dal_step`. -/
def dal_prefixes : List (String × String) :=
  [("fact", "FACT"), ("action", "DO"), ("expectation", "EXPECT")]

/-- Embeds `dual_spec._render_dal_step`.  The dict indexings
`entries_by_symbol_kind[(kind, symbol)]` and `{...}[step.kind]` raise
`KeyError` on a miss. -/
def render_dal_step (step : StepIR) (vocab : Vocab) : Except PyErr String := do
  let entry ← match entries_by_symbol_kind vocab step.kind step.symbol with
    | some e => pure e
    | none => throw (.keyError ("('" ++ step.kind ++ "', '" ++ step.symbol ++ "')"))
  let parts ← exceptMapM (fun (kv : String × PyValue) => do
      let rv ← render_value kv.2
      pure (kv.1 ++ "=" ++ rv)) (ordered_args entry step.args)
  let pfx ← match dlookup dal_prefixes step.kind with
    | some p => pure p
    | none => throw (.keyError ("'" ++ step.kind ++ "'"))
  pure (pfx ++ " " ++ step.symbol ++ "(" ++ String.intercalate ", " parts ++ ").")

/-- Embeds `dual_spec.render_dal`. -/
def render_dal (ir : FeatureIR) (vocab : Vocab) : Except PyErr String := do
  let scenarioLines ← exceptMapM (fun (scenario : ScenarioIR) => do
      let stepLines ← exceptMapM (fun step => render_dal_step step vocab)
        (scenario.givens ++ scenario.whens ++ scenario.thens)
      pure ([s!"SCENARIO {scenario.name}.", ""] ++
        scenario.imports.map (fun imported => s!"IMPORT {imported}.") ++
        (if scenario.imports.isEmpty then [] else [""]) ++
        stepLines ++ [""])) ir.scenarios
  let lines := ["; GENERATED FILE - DO NOT EDIT",
    "; source of truth is IR and vocab-driven compiler", "",
    s!"FEATURE {ir.feature_id}.", ""] ++ scenarioLines.flatten
  pure (pyRstrip (String.intercalate "\n" lines) ++ "\n")

/-- Embeds `dual_spec._template_covers_required`. -/
def template_covers_required (template : Template) (required : List String)
    (defaults : PyDict) : Bool :=
  required.all (fun name =>
    (template_placeholders template).contains name || dmem defaults name)

/-- Embeds `dual_spec._pick_gwt_template`: the canonical render template
when it covers every required argument, else the first match pattern
convertible to a covering template, else the canonical template. -/
def pick_gwt_template (entry : VocabEntry) (_args : PyDict) : Template :=
  let required := entry.args.map (·.name)
  if template_covers_required entry.gwt_render required entry.default_args then
    entry.gwt_render
  else
    match entry.gwt_patterns.findSome? (fun pattern =>
        match pattern_to_template pattern with
        | some t =>
            if template_covers_required t required entry.default_args then some t
            else none
        | none => none) with
    | some t => t
    | none => entry.gwt_render

/-- Embeds the reason-to-pattern-index branch of
`dual_spec._render_gwt_step`. -/
def render_via_reason (entry : VocabEntry) (args : PyDict) : Option String :=
  match dlookup args "reason" with
  | some reason_value =>
      if entry.reason_by_match.isEmpty then none
      else
        entry.reason_by_match.findSome? (fun mapping =>
          if mapping.reason == some reason_value then
            match mapping.match_index with
            | some mi =>
                if 0 ≤ mi ∧ mi < entry.gwt_patterns.length then
                  match entry.gwt_patterns[mi.toNat]? with
                  | some pattern => regex_literal_to_text pattern
                  | none => none
                else none
            | none => none
          else none)
  | none => none

/-- Embeds `dual_spec._render_gwt_step`: the reason-selected literal
pattern when available, otherwise the picked template formatted with the
step's arguments (an `x_contains` argument fills a missing `{x}`
placeholder; a formatting `KeyError` falls back to the raw template). -/
def render_gwt_step (step : StepIR) (vocab : Vocab) : Except PyErr String := do
  let entry ← match entries_by_symbol_kind vocab step.kind step.symbol with
    | some e => pure e
    | none => throw (.keyError ("('" ++ step.kind ++ "', '" ++ step.symbol ++ "')"))
  match render_via_reason entry step.args with
  | some rendered => pure rendered
  | none =>
      let template := pick_gwt_template entry step.args
      let template_args := (template_placeholders template).foldl (fun d ph =>
        if dmem d ph then d
        else
          match dlookup d (ph ++ "_contains") with
          | some v => dictSet d ph v
          | none => d) step.args
      match format_template template template_args with
      | some s => pure s
      | none => pure (template_text template)

/-- The 63-equals-signs header bar of `dual_spec.render_gwt`. -/
def gwt_bar : String := ";" ++ String.mk (List.replicate 63 '=')

/-- Embeds `dual_spec.render_gwt`. -/
def render_gwt (ir : FeatureIR) (vocab : Vocab) : Except PyErr String := do
  let bar := gwt_bar
  let scenBlocks ← exceptMapM (fun (scenario : ScenarioIR) => do
      let title :=
        pyCapitalize (pyStrip (pyReplaceChar scenario.name '_' ' ')) ++ "."
      let gs ← exceptMapM (fun step => render_gwt_step step vocab) scenario.givens
      let ws ← exceptMapM (fun step => render_gwt_step step vocab) scenario.whens
      let ths ← exceptMapM (fun step => render_gwt_step step vocab) scenario.thens
      pure ([bar, "; " ++ title, bar] ++ gs ++ [""] ++ ws ++ [""] ++ ths ++ [""]))
    ir.scenarios
  let lines := ["; GENERATED FILE - DO NOT EDIT",
    "; canonicalized from DAL/IR using vocab.yaml", ""] ++ scenBlocks.flatten
  pure (pyRstrip (String.intercalate "\n" lines) ++ "\n")

/-! ### Dual-spec compiler: IR serialization (`to_dict` / `json.dumps`) -/

/-- A JSON-serializable Python object tree as handed to `json.dumps`:
`jraw` carries a non-serializable value (its type name and `str`), on
which `json.dumps` raises `TypeError`. -/
inductive Json where
  | jstr (s : String)
  | jint (n : Int)
  | jbool (b : Bool)
  | jarr (items : List Json)
  | jobj (fields : List (String × Json))
  | jraw (typeName strRepr : String)
deriving Repr

mutual
/-- Decidable equality for the nested `Json` tree. -/
def decEqJson : (a b : Json) → Decidable (a = b)
  | .jstr a, .jstr b =>
      match decEq a b with
      | isTrue h => isTrue (by rw [h])
      | isFalse h => isFalse (by intro he; cases he; exact h rfl)
  | .jstr _, .jint _ => isFalse (by intro h; cases h)
  | .jstr _, .jbool _ => isFalse (by intro h; cases h)
  | .jstr _, .jarr _ => isFalse (by intro h; cases h)
  | .jstr _, .jobj _ => isFalse (by intro h; cases h)
  | .jstr _, .jraw _ _ => isFalse (by intro h; cases h)
  | .jint _, .jstr _ => isFalse (by intro h; cases h)
  | .jint a, .jint b =>
      match decEq a b with
      | isTrue h => isTrue (by rw [h])
      | isFalse h => isFalse (by intro he; cases he; exact h rfl)
  | .jint _, .jbool _ => isFalse (by intro h; cases h)
  | .jint _, .jarr _ => isFalse (by intro h; cases h)
  | .jint _, .jobj _ => isFalse (by intro h; cases h)
  | .jint _, .jraw _ _ => isFalse (by intro h; cases h)
  | .jbool _, .jstr _ => isFalse (by intro h; cases h)
  | .jbool _, .jint _ => isFalse (by intro h; cases h)
  | .jbool a, .jbool b =>
      match decEq a b with
      | isTrue h => isTrue (by rw [h])
      | isFalse h => isFalse (by intro he; cases he; exact h rfl)
  | .jbool _, .jarr _ => isFalse (by intro h; cases h)
  | .jbool _, .jobj _ => isFalse (by intro h; cases h)
  | .jbool _, .jraw _ _ => isFalse (by intro h; cases h)
  | .jarr _, .jstr _ => isFalse (by intro h; cases h)
  | .jarr _, .jint _ => isFalse (by intro h; cases h)
  | .jarr _, .jbool _ => isFalse (by intro h; cases h)
  | .jarr a, .jarr b =>
      match decEqJsonList a b with
      | isTrue h => isTrue (by rw [h])
      | isFalse h => isFalse (by intro he; cases he; exact h rfl)
  | .jarr _, .jobj _ => isFalse (by intro h; cases h)
  | .jarr _, .jraw _ _ => isFalse (by intro h; cases h)
  | .jobj _, .jstr _ => isFalse (by intro h; cases h)
  | .jobj _, .jint _ => isFalse (by intro h; cases h)
  | .jobj _, .jbool _ => isFalse (by intro h; cases h)
  | .jobj _, .jarr _ => isFalse (by intro h; cases h)
  | .jobj a, .jobj b =>
      match decEqJsonFields a b with
      | isTrue h => isTrue (by rw [h])
      | isFalse h => isFalse (by intro he; cases he; exact h rfl)
  | .jobj _, .jraw _ _ => isFalse (by intro h; cases h)
  | .jraw _ _, .jstr _ => isFalse (by intro h; cases h)
  | .jraw _ _, .jint _ => isFalse (by intro h; cases h)
  | .jraw _ _, .jbool _ => isFalse (by intro h; cases h)
  | .jraw _ _, .jarr _ => isFalse (by intro h; cases h)
  | .jraw _ _, .jobj _ => isFalse (by intro h; cases h)
  | .jraw t r, .jraw t' r' =>
      match decEq t t', decEq r r' with
      | isTrue h1, isTrue h2 => isTrue (by rw [h1, h2])
      | isFalse h1, _ => isFalse (by intro he; cases he; exact h1 rfl)
      | _, isFalse h2 => isFalse (by intro he; cases he; exact h2 rfl)

/-- Decidable equality for `Json` lists. -/
def decEqJsonList : (a b : List Json) → Decidable (a = b)
  | [], [] => isTrue rfl
  | [], _ :: _ => isFalse (by intro h; cases h)
  | _ :: _, [] => isFalse (by intro h; cases h)
  | a :: as, b :: bs =>
      match decEqJson a b, decEqJsonList as bs with
      | isTrue h1, isTrue h2 => isTrue (by rw [h1, h2])
      | isFalse h1, _ => isFalse (by intro he; cases he; exact h1 rfl)
      | _, isFalse h2 => isFalse (by intro he; cases he; exact h2 rfl)

/-- Decidable equality for `Json` object field lists. -/
def decEqJsonFields : (a b : List (String × Json)) → Decidable (a = b)
  | [], [] => isTrue rfl
  | [], _ :: _ => isFalse (by intro h; cases h)
  | _ :: _, [] => isFalse (by intro h; cases h)
  | (k, v) :: as, (k2, v2) :: bs =>
      match decEq k k2, decEqJson v v2, decEqJsonFields as bs with
      | isTrue h1, isTrue h2, isTrue h3 => isTrue (by rw [h1, h2, h3])
      | isFalse h1, _, _ => isFalse (by intro he; cases he; exact h1 rfl)
      | _, isFalse h2, _ => isFalse (by intro he; cases he; exact h2 rfl)
      | _, _, isFalse h3 => isFalse (by intro he; cases he; exact h3 rfl)
end

instance : DecidableEq Json := decEqJson

/-- Decidable equality for `Except` results (needed to state concrete
facts about fallible runs of the compiler by `decide`). -/
def exceptDecEq {ε α : Type} [DecidableEq ε] [DecidableEq α] :
    (x y : Except ε α) → Decidable (x = y)
  | .ok a, .ok b =>
      match decEq a b with
      | isTrue h => isTrue (by rw [h])
      | isFalse h => isFalse (by intro he; cases he; exact h rfl)
  | .error e, .error f =>
      match decEq e f with
      | isTrue h => isTrue (by rw [h])
      | isFalse h => isFalse (by intro he; cases he; exact h rfl)
  | .ok _, .error _ => isFalse (by intro h; cases h)
  | .error _, .ok _ => isFalse (by intro h; cases h)

instance {ε α : Type} [DecidableEq ε] [DecidableEq α] :
    DecidableEq (Except ε α) := exceptDecEq

/-- The JSON tree of one argument value. -/
def pyValueJson : PyValue → Json
  | .bool b => .jbool b
  | .int n => .jint n
  | .str s => .jstr s
  | .other t r => .jraw t r

/-- Key-ordering comparator for Python `sorted` over `(key, value)`
pairs: keys are compared first and, the keys of a dict being distinct,
the values never are. -/
def keyLe {α : Type} (a b : String × α) : Bool := pyStrLe a.1 b.1

/-- Embeds `dual_spec.StepIR.to_dict`: fixed keys plus the args dict
sorted by key. -/
def StepIR.to_dict (step : StepIR) : Json :=
  .jobj [("kind", .jstr step.kind), ("symbol", .jstr step.symbol),
    ("args", .jobj ((sortOrd keyLe step.args).map
      (fun kv => (kv.1, pyValueJson kv.2))))]

/-- Embeds `dual_spec.ScenarioIR.to_dict`. -/
def ScenarioIR.to_dict (scenario : ScenarioIR) : Json :=
  .jobj [("name", .jstr scenario.name),
    ("imports", .jarr (scenario.imports.map Json.jstr)),
    ("givens", .jarr (scenario.givens.map StepIR.to_dict)),
    ("whens", .jarr (scenario.whens.map StepIR.to_dict)),
    ("thens", .jarr (scenario.thens.map StepIR.to_dict))]

/-- Embeds `dual_spec.FeatureIR.to_dict`. -/
def FeatureIR.to_dict (ir : FeatureIR) : Json :=
  .jobj [("feature_id", .jstr ir.feature_id),
    ("scenarios", .jarr (ir.scenarios.map ScenarioIR.to_dict))]

/-- One lowercase hexadecimal digit. -/
def hexDigit (n : Nat) : Char :=
  if n < 10 then Char.ofNat (48 + n) else Char.ofNat (87 + n)

/-- Four lowercase hexadecimal digits. -/
def hex4 (n : Nat) : List Char :=
  [hexDigit (n / 4096 % 16), hexDigit (n / 256 % 16),
   hexDigit (n / 16 % 16), hexDigit (n % 16)]

/-- Escaping of one character by `json.dumps` with the default
`ensure_ascii=True`: short escapes, `\u` escapes for controls and
non-ASCII (surrogate pairs beyond the BMP), everything in `0x20..0x7E`
except `"` and `\` literal. -/
def jsonEscapeChar (c : Char) : List Char :=
  if c = '"' then ['\\', '"']
  else if c = '\\' then ['\\', '\\']
  else if c = '\n' then ['\\', 'n']
  else if c = '\t' then ['\\', 't']
  else if c = '\r' then ['\\', 'r']
  else if c.toNat = 8 then ['\\', 'b']
  else if c.toNat = 12 then ['\\', 'f']
  else if c.toNat < 32 ∨ c.toNat > 126 then
    if c.toNat ≤ 65535 then '\\' :: 'u' :: hex4 c.toNat
    else
      ('\\' :: 'u' :: hex4 (55296 + (c.toNat - 65536) / 1024)) ++
        ('\\' :: 'u' :: hex4 (56320 + (c.toNat - 65536) % 1024))
  else [c]

/-- A JSON string literal as `json.dumps` writes it. -/
def jsonQuote (s : String) : String :=
  String.mk ('"' :: (s.data.flatMap jsonEscapeChar ++ ['"']))

/-- Indentation prefix for `indent=2`. -/
def indentStr (n : Nat) : String := String.mk (List.replicate (2 * n) ' ')

mutual
/-- Recursively sorts every object's keys, modelling `sort_keys=True`. -/
def sortJson : Json → Json
  | .jobj fields => .jobj (sortOrd keyLe (sortJsonFields fields))
  | .jarr items => .jarr (sortJsonArr items)
  | j => j

/-- List part of `sortJson`. -/
def sortJsonArr : List Json → List Json
  | [] => []
  | j :: js => sortJson j :: sortJsonArr js

/-- Object-field part of `sortJson`. -/
def sortJsonFields : List (String × Json) → List (String × Json)
  | [] => []
  | (k, v) :: fs => (k, sortJson v) :: sortJsonFields fs
end

mutual
/-- Renders a (key-sorted) JSON tree the way `json.dumps(..., indent=2)`
does, raising `TypeError` on a non-serializable node. -/
def renderJson : Json → Nat → Except PyErr String
  | .jstr s, _ => .ok (jsonQuote s)
  | .jint n, _ => .ok (toString n)
  | .jbool b, _ => .ok (if b then "true" else "false")
  | .jraw t _, _ =>
      .error (.typeError ("Object of type " ++ t ++ " is not JSON serializable"))
  | .jarr [], _ => .ok "[]"
  | .jarr (j :: js), ind =>
      match renderJsonList (j :: js) (ind + 1) with
      | .ok parts =>
          .ok ("[\n" ++
            String.intercalate ",\n" (parts.map (fun p => indentStr (ind + 1) ++ p)) ++
            "\n" ++ indentStr ind ++ "]")
      | .error e => .error e
  | .jobj [], _ => .ok "\x7b\x7d"
  | .jobj (f :: fs), ind =>
      match renderJsonFields (f :: fs) (ind + 1) with
      | .ok parts =>
          .ok ("\x7b\n" ++
            String.intercalate ",\n" (parts.map (fun p => indentStr (ind + 1) ++ p)) ++
            "\n" ++ indentStr ind ++ "\x7d")
      | .error e => .error e

/-- Array items of `renderJson`. -/
def renderJsonList : List Json → Nat → Except PyErr (List String)
  | [], _ => .ok []
  | j :: js, ind =>
      match renderJson j ind with
      | .ok s =>
          match renderJsonList js ind with
          | .ok rest => .ok (s :: rest)
          | .error e => .error e
      | .error e => .error e

/-- Object fields of `renderJson` (`": "` separator under `indent`). -/
def renderJsonFields : List (String × Json) → Nat → Except PyErr (List String)
  | [], _ => .ok []
  | (k, v) :: fs, ind =>
      match renderJson v ind with
      | .ok s =>
          match renderJsonFields fs ind with
          | .ok rest => .ok ((jsonQuote k ++ ": " ++ s) :: rest)
          | .error e => .error e
      | .error e => .error e
end

/-- Embeds `dual_spec.serialize_ir_json`:
`json.dumps(ir.to_dict(), indent=2, sort_keys=True) + "\n"`. -/
def serialize_ir_json (ir : FeatureIR) : Except PyErr String :=
  match renderJson (sortJson ir.to_dict) 0 with
  | .ok s => .ok (s ++ "\n")
  | .error e => .error e

/-! ### Dual-spec compiler: Python value equality and path helpers -/

/-- Model of Python `==` on the scalar values the compiler handles:
booleans and integers compare across types (`True == 1`), strings by
content; `other` values compare by type name and `str` rendering, which
covers the YAML scalar fragment the vocabularies ship. -/
def pyValueEqPy : PyValue → PyValue → Bool
  | .bool a, .bool b => a == b
  | .int a, .int b => a == b
  | .bool a, .int b => (if a then (1 : Int) else 0) == b
  | .int a, .bool b => a == (if b then (1 : Int) else 0)
  | .str a, .str b => a == b
  | .other t r, .other u s => t == u && r == s
  | _, _ => false

/-- Model of Python `==` on optional dict lookups
(`d.get(k) == e.get(k)`, where either side may be `None`). -/
def pyOptEq : Option PyValue → Option PyValue → Bool
  | none, none => true
  | some a, some b => pyValueEqPy a b
  | _, _ => false

/-- Model of Python `==` on dicts of scalar values: order-insensitive
(same key sets, equal values; the compared dicts are duplicate-free). -/
def pyDictEq (a b : PyDict) : Bool :=
  a.length == b.length &&
    a.all (fun kv =>
      match dlookup b kv.1 with
      | some v => pyValueEqPy kv.2 v
      | none => false)

mutual

/-- Model of Python `==` on the JSON trees `to_dict` produces: dicts
compare order-insensitively (their key lists are duplicate-free in every
`to_dict` output), lists pointwise, and booleans and integers compare
across types as in Python. -/
def pyJsonEq : Json → Json → Bool
  | .jstr a, .jstr b => a == b
  | .jint a, .jint b => a == b
  | .jbool a, .jbool b => a == b
  | .jbool a, .jint b => (if a then (1 : Int) else 0) == b
  | .jint a, .jbool b => a == (if b then (1 : Int) else 0)
  | .jarr a, .jarr b => pyJsonEqList a b
  | .jobj a, .jobj b => a.length == b.length && pyJsonEqFields a b
  | .jraw t r, .jraw u s => t == u && r == s
  | _, _ => false

/-- Pointwise Python `==` on JSON lists. -/
def pyJsonEqList : List Json → List Json → Bool
  | [], [] => true
  | a :: as, b :: bs => pyJsonEq a b && pyJsonEqList as bs
  | _, _ => false

/-- Each field of the first object is present and equal in the second
(with the length check of `pyJsonEq` this is Python dict equality for
duplicate-free field lists). -/
def pyJsonEqFields : List (String × Json) → List (String × Json) → Bool
  | [], _ => true
  | (k, v) :: rest, b =>
      (match dlookup b k with
       | some w => pyJsonEq v w
       | none => false) && pyJsonEqFields rest b

end

/-- Model of `pathlib.PurePath.stem` for a POSIX-style path string: the
final component with its last suffix removed, where a suffix needs a dot
that is neither the first nor the last character of the name. -/
def pathStem (p : String) : String :=
  let name := ((splitOnChar '/' p.data).getLast?).getD []
  match name.reverse with
  | [] => ""
  | lastc :: _ =>
      if lastc = '.' then String.mk name
      else
        match name.reverse.dropWhile (fun c => c ≠ '.') with
        | '.' :: c :: cs => String.mk ((c :: cs).reverse)
        | _ => String.mk name

/-! ### Dual-spec compiler: line-hint scanners

`_line_hint` and `_bad_line_hint` run a fixed cascade of `re.search`
calls; each scanner below finds the leftmost match of one of those
patterns (greedy repetition resolved exactly as the backtracking engine
does). -/

/-- The `[A-Za-z0-9/_-]` character class (slash, underscore, dash and
alphanumerics). -/
def isApiChar (c : Char) : Bool :=
  isAlphaNumAscii c || c = '_' || c = '/' || c = '-'

/-- Leftmost match of the `/api/` path pattern: `/api/` followed by one
or more characters of `isApiChar`. -/
def findApi : List Char → Option String
  | [] => none
  | c :: rest =>
      if "/api/".data.isPrefixOf (c :: rest) then
        let run := ((c :: rest).drop 5).takeWhile isApiChar
        if run.isEmpty then findApi rest
        else some (String.mk ("/api/".data ++ run))
      else findApi rest

/-- The alternatives of the camel-case scanner, in alternation order. -/
def camelSuffixes : List String := ["Service", "Repository", "Controller"]

/-- Greedy resolution of `[A-Za-z0-9]*(Service|Repository|Controller)`
against the maximal alphanumeric run after the uppercase start: the star
takes as many characters as possible, backing off until an alternative
matches right after it. -/
def camelAt (run : List Char) : Option (List Char) :=
  ((List.range (run.length + 1)).reverse).findSome? (fun p =>
    let rest := run.drop p
    camelSuffixes.findSome? (fun w =>
      if w.data.isPrefixOf rest then some (run.take p ++ w.data) else none))

/-- Leftmost match of `[A-Z][A-Za-z0-9]*(Service|Repository|Controller)`. -/
def findCamel : List Char → Option String
  | [] => none
  | c :: rest =>
      if isUpperAscii c then
        match camelAt (rest.takeWhile isAlphaNumAscii) with
        | some pre => some (String.mk (c :: pre))
        | none => findCamel rest
      else findCamel rest

/-- Leftmost match of `[a-z]+_[a-z_]*`: a lowercase run immediately
followed by an underscore (otherwise no match can start inside that
run either, and the scan moves on). -/
def findSnake : List Char → Option String
  | [] => none
  | c :: rest =>
      if isLowerAscii c then
        let run := (c :: rest).takeWhile isLowerAscii
        match (c :: rest).drop run.length with
        | '_' :: after =>
            some (String.mk
              (run ++ '_' :: after.takeWhile (fun d => isLowerAscii d || d = '_')))
        | _ => findSnake rest
      else findSnake rest

/-- The token character class: alphanumerics, underscore, slash, dot and
dash. -/
def isTokenChar (c : Char) : Bool :=
  isAlphaNumAscii c || c = '_' || c = '/' || c = '.' || c = '-'

/-- Leftmost match of one or more `isTokenChar` characters. -/
def findToken : List Char → Option String
  | [] => none
  | c :: rest =>
      if isTokenChar c then some (String.mk ((c :: rest).takeWhile isTokenChar))
      else findToken rest

/-- Leftmost match of `FACT\s+([a-z][a-z0-9_]*)`, returning the group. -/
def findFactSym : List Char → Option String
  | [] => none
  | c :: rest =>
      if "FACT".data.isPrefixOf (c :: rest) then
        let after := (c :: rest).drop 4
        let ws := after.takeWhile Char.isWhitespace
        if ws.isEmpty then findFactSym rest
        else
          match after.drop ws.length with
          | d :: more =>
              if isLowerAscii d then
                some (String.mk (d :: more.takeWhile
                  (fun e => isLowerAscii e || isDigitAscii e || e = '_')))
              else findFactSym rest
          | [] => findFactSym rest
      else findFactSym rest

/-- Embeds `dual_spec._line_hint`. -/
def line_hint (line : String) : String :=
  match findApi line.data with
  | some s => s
  | none =>
  match findCamel line.data with
  | some s => s
  | none =>
  match findSnake line.data with
  | some snake =>
      if pyContains snake "_has_" then
        String.intercalate "_" (((splitOnChar '_' snake.data).map String.mk).take 2)
      else snake
  | none =>
  match findToken line.data with
  | some s => s
  | none => line

/-- Embeds `dual_spec._bad_line_hint`. -/
def bad_line_hint (line : String) : String :=
  match findFactSym line.data with
  | some sym => sym
  | none => line_hint line

/-! ### Dual-spec compiler: argument validation -/

/-- Embeds `dual_spec._validate_type`.  The `types` table holds the raw
YAML mappings, so `if not type_spec` is the truthiness test of such a
mapping: false exactly when the mapping is empty (all modelled keys
absent). -/
def validate_type (vocab : Vocab) (type_name : String) (value : PyValue)
    (path : String) (line_no : Nat) : Except PyErr Unit :=
  match dlookup vocab.types type_name with
  | none => .error (.dualSpecError s!"{path}:{line_no}: Unknown type '{type_name}'")
  | some ts =>
      if ts.kind.isNone && ts.pattern.isNone && ts.values.isEmpty then
        .error (.dualSpecError s!"{path}:{line_no}: Unknown type '{type_name}'")
      else
        match ts.kind with
        | some "string" =>
            match value with
            | .str s =>
                (match ts.pattern with
                 | some p =>
                     if p s then .ok ()
                     else .error (.dualSpecError
                       s!"{path}:{line_no}: Value '{s}' does not match type '{type_name}'")
                 | none => .ok ())
            | _ => .error (.dualSpecError
                s!"{path}:{line_no}: Expected string for type '{type_name}'")
        | some "enum" =>
            if ts.values.any (fun v => pyValueEqPy value v) then .ok ()
            else
              let vs := pyStr value
              .error (.dualSpecError
                s!"{path}:{line_no}: Value '{vs}' not allowed for type '{type_name}'")
        | k =>
            let kstr := match k with | some s => s | none => "None"
            .error (.dualSpecError
              s!"{path}:{line_no}: Unsupported type kind '{kstr}' for '{type_name}'")

/-- Embeds `dual_spec._validate_step_args`. -/
def validate_step_args (vocab : Vocab) (entry : VocabEntry) (args : PyDict)
    (path : String) (line_no : Nat) : Except PyErr Unit :=
  let required := entry.args.map (·.name)
  let sym := entry.symbol
  match required.find? (fun name => !dmem args name) with
  | some name =>
      .error (.dualSpecError s!"{path}:{line_no}: Missing arg '{name}' for {sym}")
  | none =>
  match (args.map Prod.fst).find? (fun name => !required.contains name) with
  | some name =>
      .error (.dualSpecError s!"{path}:{line_no}: Unexpected arg '{name}' for {sym}")
  | none =>
      match exceptMapM (fun (spec : ArgSpec) =>
          match dlookup args spec.name with
          | some v => validate_type vocab spec.type_name v path line_no
          | none => .error (.keyError ("'" ++ spec.name ++ "'")))
        entry.args with
      | .ok _ => .ok ()
      | .error e => .error e

/-! ### Dual-spec compiler: GWT line matching -/

/-- The keyword probe order of `dual_spec._split_keyword`. -/
def gwt_keyword_order : List String := ["GIVEN", "WHEN", "THEN", "AND"]

/-- The keyword-to-kind dict of `dual_spec.parse_gwt`. -/
def keyword_kinds : List (String × String) :=
  [("GIVEN", "fact"), ("WHEN", "action"), ("THEN", "expectation")]

/-- The kind-to-canonical-keyword dict of the `AND` branch. -/
def kind_keywords : List (String × String) :=
  [("fact", "GIVEN"), ("action", "WHEN"), ("expectation", "THEN")]

/-- Embeds `dual_spec._split_keyword`: the first canonical keyword whose
configured token (defaulting to itself) followed by a space starts the
line, together with the remainder of the line. -/
def split_keyword (line : String) (vocab : Vocab) : Option String × String :=
  match gwt_keyword_order.findSome? (fun key =>
      let token := (dlookup vocab.gwt_keywords key).getD key
      let pre := token ++ " "
      if pyStartsWith line pre then
        some (key, String.mk (line.data.drop pre.data.length))
      else none) with
  | some kr => (some kr.1, kr.2)
  | none => (none, "")

/-- One pass of `dual_spec._match_gwt_line` over a pattern list, keeping
the running pattern index. -/
def matchPatterns (pats : List Rex) (idx : Nat) (line : List Char) :
    Option (PyDict × Nat) :=
  match pats with
  | [] => none
  | p :: rest =>
      match rexMatch p line with
      | some groups =>
          some (groups.map (fun g => (g.1, PyValue.str g.2)), idx)
      | none => matchPatterns rest (idx + 1) line

/-- Embeds `dual_spec._match_gwt_line`: entries of the kind in insertion
order, each entry's patterns in order; the matched groups (all non-`None`
in the modelled fragment) become the argument dict, with the pattern
index recorded under `_match_index`. -/
def match_gwt_line (line : String) (kind : String) (vocab : Vocab) :
    Option (VocabEntry × PyDict) :=
  (entries_by_kind vocab kind).findSome? (fun entry =>
    (matchPatterns entry.gwt_patterns 0 line.data).map (fun gi =>
      (entry, dictSet gi.1 "_match_index" (.int gi.2))))

/-- Embeds `dual_spec._unknown_gwt_line_error`.  The source appends a
`Closest candidates` suffix computed by `difflib.get_close_matches`, an
external fuzzy matcher outside the modelled fragment; the model renders
the message without that suffix. -/
def unknown_gwt_line_error (path : String) (line_no : Nat) (line : String)
    (_vocab : Vocab) : String :=
  s!"{path}:{line_no}: Could not match GWT line: {line}."

/-! ### Dual-spec compiler: argument enrichment and context -/

/-- First truthy value of a chain of optional lookups, modelling Python
`a.get(x) or b.get(y) or ...` (a missing key yields `None`, which is
falsy). -/
def firstTruthy : List (Option PyValue) → Option PyValue
  | [] => none
  | none :: rest => firstTruthy rest
  | some v :: rest => if pyTruthy v then some v else firstTruthy rest

/-- First placeholder of the template that is missing from the argument
dict — the key of the `KeyError` that `str.format` raises. -/
def firstMissingPh (template : Template) (args : PyDict) : Option String :=
  template.findSome? (fun part =>
    match part with
    | .ph name => if dmem args name then none else some name
    | .lit _ => none)

/-- Embeds `dual_spec._resolve_derived_value`.  The function mutates the
parser context (`context[source] = value` inside the derivation
branches), so the model returns the value together with the updated
context; a `format` derivation raises `KeyError` when a placeholder is
missing from `{**context, **args}`. -/
def resolve_derived_value (source : PyValue) (vocab : Vocab)
    (context : PyDict) (args : PyDict) : Except PyErr (PyValue × PyDict) :=
  match source with
  | .str s =>
      match dlookup args s with
      | some v => .ok (v, context)
      | none =>
      match dlookup context s with
      | some v => .ok (v, context)
      | none =>
      match dlookup vocab.derivations s with
      | some derivation =>
          if derivation.transform = some "slugify_kebab" then
            let feature := pyStr ((firstTruthy
              [dlookup args "feature", dlookup context "feature"]).getD (.str "feature"))
            let value := PyValue.str (slugify_kebab feature)
            .ok (value, dictSet context s value)
          else
            match derivation.format with
            | some fmt =>
                let format_ctx := dictMerge context args
                let format_ctx :=
                  if dmem format_ctx "feature_slug" then format_ctx
                  else
                    let feature := pyStr ((firstTruthy
                      [dlookup format_ctx "feature", dlookup context "feature"]).getD
                        (.str "feature"))
                    dictSet format_ctx "feature_slug" (.str (slugify_kebab feature))
                match format_template fmt format_ctx with
                | some value =>
                    .ok (.str value, dictSet context s (.str value))
                | none =>
                    .error (.keyError
                      ("'" ++ ((firstMissingPh fmt format_ctx).getD "") ++ "'"))
            | none => .ok (source, context)
      | none => .ok (source, context)
  | _ => .ok (source, context)

/-- Embeds `dual_spec._update_context`. -/
def update_context (context : PyDict) (args : PyDict) : PyDict :=
  args.foldl (fun ctx kv =>
    let ctx :=
      if ["feature", "feature_slug", "file", "gwt", "dal", "source", "from",
          "target", "scenario", "line"].contains kv.1 then
        dictSet ctx kv.1 kv.2
      else ctx
    let ctx :=
      if kv.1 = "file" then
        match kv.2 with
        | .str v =>
            let ctx := if pyEndsWith v ".dal" then dictSet ctx "dal_spec_path" kv.2 else ctx
            if pyEndsWith v ".txt" then dictSet ctx "gwt_spec_path" kv.2 else ctx
        | _ => ctx
      else ctx
    if ["path", "gwt", "dal"].contains kv.1 then
      match kv.2 with
      | .str v =>
          let ctx := if pyEndsWith v ".dal" then dictSet ctx "dal_spec_path" kv.2 else ctx
          if pyEndsWith v ".txt" then dictSet ctx "gwt_spec_path" kv.2 else ctx
      | _ => ctx
    else ctx) context

/-- One target/source pair of a derive rule, acting on (args, context),
embedding the inner loop of the derive-rules pass of
`dual_spec._apply_enrichment`. -/
def derive_one (vocab : Vocab) (required : List String)
    (st : PyDict × PyDict) (ts : String × PyValue) :
    Except PyErr (PyDict × PyDict) :=
  let (args, context) := st
  let (target, source) := ts
  if dmem args target then .ok st
  else if dmem context target ∧ source = PyValue.str target then
    if required.contains target then
      match dlookup context target with
      | some v => .ok (dictSet args target v, context)
      | none => .ok st
    else .ok st
  else do
    let vc ← resolve_derived_value source vocab context args
    let context := dictSet vc.2 target vc.1
    let args := if required.contains target then dictSet args target vc.1 else args
    .ok (args, context)

/-- Embeds `dual_spec._apply_enrichment` (the `line` parameter of the
source is unused by its body and omitted).  The source mutates the
parser context, so the model returns the filtered argument dict together
with the updated context.  The source backfills the required arguments
by iterating a Python `set` of their names, whose order is unobservable
downstream (every consumer reads the dict by key or sorts it); the model
iterates them in declaration order. -/
def apply_enrichment (entry : VocabEntry) (args_with_meta : PyDict)
    (vocab : Vocab) (context : PyDict) : Except PyErr (PyDict × PyDict) := do
  let args := args_with_meta.filter (fun kv => kv.1 != "_match_index")
  let required := entry.args.map (·.name)
  let args := entry.default_args.foldl (fun a kv => dictSetDefault a kv.1 kv.2) args
  let match_idx : Int :=
    match dlookup args_with_meta "_match_index" with
    | some (.int n) => n
    | _ => -1
  let args := entry.reason_by_match.foldl (fun a mapping =>
    match mapping.reason with
    | some r =>
        if mapping.match_index = some match_idx then dictSetDefault a "reason" r
        else a
    | none => a) args
  let args :=
    if dmem args "suggestion" ∧ required.contains "suggestion_contains" then
      match dlookup args "suggestion" with
      | some v => dictSetDefault args "suggestion_contains" v
      | none => args
    else args
  let args :=
    if dmem args "line" ∧ required.contains "line_contains" then
      match dlookup args "line" with
      | some v => dictSetDefault args "line_contains" v
      | none => args
    else args
  let args :=
    if dmem args "suggestion" ∧ ¬ required.contains "suggestion" then
      dictDel args "suggestion"
    else args
  let args :=
    if dmem args "line" ∧ ¬ required.contains "line" then dictDel args "line"
    else args
  let ac ← exceptFoldl (fun (st : PyDict × PyDict) (rule : DeriveRule) =>
      let skip :=
        match rule.when_match_group_present with
        | some g => g != "" && !dmem st.1 g
        | none => false
      if skip then .ok st
      else exceptFoldl (derive_one vocab required) st rule.derive)
    (args, context) entry.derive_rules
  let args := ac.1
  let context := ac.2
  let args := required.foldl (fun a name =>
    if dmem a name then a
    else
      match dlookup context name with
      | some v => dictSet a name v
      | none => a) args
  let args :=
    if required.contains "target" ∧ dmem context "file" ∧
        pyOptEq (dlookup args "target") (dlookup entry.default_args "target") then
      match dlookup context "file" with
      | some v => dictSet args "target" v
      | none => args
    else args
  let args :=
    if required.contains "file" ∧ dmem context "file" ∧
        pyOptEq (dlookup args "file") (dlookup entry.default_args "file") then
      match dlookup context "file" with
      | some v => dictSet args "file" v
      | none => args
    else args
  let args :=
    if required.contains "line_contains" && dmem args "line_contains" &&
        (match dlookup args "line_contains",
               dlookup entry.default_args "line_contains" with
         | some v, some d => pyValueEqPy v d
         | _, _ => false) && dmem context "line" then
      match dlookup context "line" with
      | some lv => dictSet args "line_contains" (.str (line_hint (pyStr lv)))
      | none => args
    else args
  let args :=
    if required.contains "bad_line_contains" && dmem args "bad_line_contains" &&
        (match dlookup args "bad_line_contains",
               dlookup entry.default_args "bad_line_contains" with
         | some v, some d => pyValueEqPy v d
         | _, _ => false) && dmem context "line" then
      match dlookup context "line" with
      | some lv => dictSet args "bad_line_contains" (.str (bad_line_hint (pyStr lv)))
      | none => args
    else args
  let context :=
    if dmem args "feature" ∧ ¬ dmem context "feature_slug" then
      match dlookup args "feature" with
      | some fv => dictSet context "feature_slug" (.str (slugify_kebab (pyStr fv)))
      | none => context
    else context
  let context :=
    match dlookup args "feature" with
    | some fv => dictSet context "feature" fv
    | none => context
  let args :=
    match dlookup args "suggestion" with
    | some (.str s) => dictSet args "suggestion" (.str (pyRstrip s))
    | _ => args
  .ok (args.filter (fun kv => required.contains kv.1), context)

/-! ### Dual-spec compiler: the GWT parser state machine -/

/-- The mutable locals of `dual_spec.parse_gwt`, gathered into one
state record. -/
structure PGState where
  scenarios : List ScenarioIR
  current_name : String
  givens : List StepIR
  whens : List StepIR
  thens : List StepIR
  imports : List String
  last_kind : Option String
  in_header : Bool
  header_lines : List String
  scenario_counter : Nat
  context : PyDict
deriving Repr, Inhabited

/-- The context keys that survive a scenario flush. -/
def kept_context_keys : List String :=
  ["feature", "feature_slug", "dal_spec_path", "gwt_spec_path"]

/-- Embeds the inner `flush()` of `dual_spec.parse_gwt`: a no-op without
pending steps, otherwise the pending scenario is appended (its name
canonicalized, a counter-based fallback when none was set) and the
per-scenario state and the transient context keys are cleared. -/
def pg_flush (st : PGState) : PGState :=
  if st.givens.isEmpty && st.whens.isEmpty && st.thens.isEmpty then st
  else
    let scenario_name :=
      if st.current_name ≠ "" then st.current_name
      else
        let n := st.scenarios.length + 1
        s!"scenario_{n}"
    { st with
      scenarios := st.scenarios ++
        [{ name := slug_to_scenario_name scenario_name
           imports := st.imports
           givens := st.givens
           whens := st.whens
           thens := st.thens }]
      current_name := ""
      givens := []
      whens := []
      thens := []
      imports := []
      context := st.context.filter (fun kv => kept_context_keys.contains kv.1) }

/-- Embeds one iteration of the line loop of `dual_spec.parse_gwt`. -/
def pg_line (path : String) (vocab : Vocab) (line_no : Nat) (raw : String)
    (st : PGState) : Except PyErr PGState :=
  let stripped := pyStrip raw
  if stripped = "" then .ok st
  else if pyStartsWith stripped ";" && pyContains stripped "===" then
    if st.in_header then
      let joined := pyStrip (String.intercalate " " st.header_lines)
      .ok { st with
        current_name := if joined ≠ "" then joined else st.current_name
        header_lines := []
        in_header := false }
    else
      let st := pg_flush st
      .ok { st with in_header := true, header_lines := [] }
  else if pyStartsWith stripped ";" then
    .ok (if st.in_header then
      { st with header_lines := st.header_lines ++ [pyStrip (pyLstripSemis stripped)] }
    else st)
  else
    match split_keyword stripped vocab with
    | (none, _) =>
        .error (.dualSpecError (unknown_gwt_line_error path line_no stripped vocab))
    | (some keyword, rest) => do
        let kl ← if keyword = "AND" then
            match st.last_kind with
            | none => throw (.dualSpecError
                s!"{path}:{line_no}: AND used before GIVEN/WHEN/THEN")
            | some kind =>
                match dlookup kind_keywords kind with
                | some ck => pure (kind, ck ++ " " ++ rest)
                | none => throw (.keyError ("'" ++ kind ++ "'"))
          else
            match dlookup keyword_kinds keyword with
            | some kind => pure (kind, stripped)
            | none => throw (.keyError ("'" ++ keyword ++ "'"))
        let kind := kl.1
        match match_gwt_line kl.2 kind vocab with
        | none =>
            throw (.dualSpecError (unknown_gwt_line_error path line_no stripped vocab))
        | some em => do
            let entry := em.1
            let ac ← apply_enrichment entry em.2 vocab st.context
            let args := ac.1
            validate_step_args vocab entry args path line_no
            let context := update_context ac.2 args
            let step : StepIR := { kind := kind, symbol := entry.symbol, args := args }
            let st := { st with context := context }
            let st :=
              if kind = "fact" then
                let st :=
                  if !st.whens.isEmpty || !st.thens.isEmpty then pg_flush st else st
                { st with givens := st.givens ++ [step] }
              else if kind = "action" then { st with whens := st.whens ++ [step] }
              else { st with thens := st.thens ++ [step] }
            let st :=
              if st.current_name = "" then
                let n := st.scenario_counter + 1
                { st with scenario_counter := n, current_name := s!"scenario_{n}" }
              else st
            pure { st with last_kind := some kind }

/-- Runs `pg_line` over the numbered lines (`enumerate(lines, start=1)`). -/
def pg_lines (path : String) (vocab : Vocab) :
    PGState → Nat → List String → Except PyErr PGState
  | st, _, [] => .ok st
  | st, n, l :: rest =>
      match pg_line path vocab n l st with
      | .ok st' => pg_lines path vocab st' (n + 1) rest
      | .error e => .error e

/-- Embeds `dual_spec.parse_gwt`, reading the file's text and path as
arguments (`path.read_text()` is the only I/O).  The stem drops an extra
`.txt` suffix (so `slug.txt.canonical` and `slug.txt` share a feature
id), and a trailing open header is closed before the final flush. -/
def parse_gwt (path : String) (text : String) (vocab : Vocab) :
    Except PyErr FeatureIR := do
  let lines := pySplitlines text
  let stem0 := pathStem path
  let stem :=
    if pyEndsWith stem0 ".txt" then
      String.mk (stem0.data.take (stem0.data.length - 4))
    else stem0
  let feature_id := slug_to_feature_id stem
  let init : PGState :=
    { scenarios := [], current_name := "", givens := [], whens := [], thens := []
      imports := [], last_kind := none, in_header := false, header_lines := []
      scenario_counter := 0, context := [] }
  let st ← pg_lines path vocab init 1 lines
  let st :=
    if st.in_header then
      let joined := pyStrip (String.intercalate " " st.header_lines)
      { st with current_name := if joined ≠ "" then joined else st.current_name }
    else st
  let st := pg_flush st
  pure { feature_id := feature_id, scenarios := st.scenarios }

/-! ### Dual-spec compiler: the compile gate -/

/-- The output paths of the `.txt` branch of `dual_spec.compile_spec`,
relative to the project root. -/
structure CompileOutputs where
  dal : String
  canonical_gwt : String
  ir : String
  diff : String
deriving DecidableEq, Repr

/-- Embeds the `.txt` branch of `dual_spec.compile_spec` on the input's
path and text.  Directory creation and file writes are I/O and drop out;
everything the branch computes before writing — the DAL text, the
canonical GWT and the serialized IR — is still evaluated in source order
because each can raise.  The round-trip gate reparses the canonical text
(under the `slug.txt.canonical` path, whose stem strips back to `slug`)
and compares the two IR dicts with Python `==`; the unified diff is
built by `difflib` and never raises, so it drops out with the writes. -/
def compile_spec_txt (input_path : String) (text : String) (vocab : Vocab) :
    Except PyErr CompileOutputs := do
  let slug := pathStem input_path
  let ir ← parse_gwt input_path text vocab
  let _dal_text ← render_dal ir vocab
  let canonical_gwt ← render_gwt ir vocab
  let canonical_path := "specs/" ++ slug ++ ".txt.canonical"
  let _ir_text ← serialize_ir_json ir
  let canonical_ir ← parse_gwt canonical_path canonical_gwt vocab
  if pyJsonEq (FeatureIR.to_dict canonical_ir) (FeatureIR.to_dict ir) then
    pure { dal := "specs/" ++ slug ++ ".dal"
           canonical_gwt := canonical_path
           ir := "acceptance-pipeline/ir/" ++ slug ++ ".json"
           diff := "acceptance-pipeline/roundtrip/" ++ slug ++ ".diff.txt" }
  else
    throw (.dualSpecError
      s!"Roundtrip gate failed: IR mismatch for {input_path} vs {canonical_path}")

/-! ### Claim C1: concrete vocabularies for the round-trip analysis -/

/-- A fact entry matching `GIVEN foo.` and rendering `GIVEN foo.`. -/
def c1_entry_a1 : VocabEntry :=
  mkVocabEntry "fact" "a1" [] [[RexPart.lit "GIVEN foo."]] [TPart.lit "GIVEN foo."] "A1"

/-- A fact entry matching `GIVEN bar.` but rendering `GIVEN foo.` — a
legal vocabulary whose canonical rendering collides with `a1`. -/
def c1_entry_a2 : VocabEntry :=
  mkVocabEntry "fact" "a2" [] [[RexPart.lit "GIVEN bar."]] [TPart.lit "GIVEN foo."] "A2"

/-- The two-entry vocabulary of the round-trip counterexample. -/
def c1_vocab : Vocab :=
  { types := []
    derivations := []
    gwt_keywords := []
    entries := [c1_entry_a1, c1_entry_a2] }

/-- What `GIVEN bar.` parses to under `c1_vocab`. -/
def c1_ir0 : FeatureIR :=
  { feature_id := "t"
    scenarios := [{ name := "scenario_1"
                    imports := []
                    givens := [{ kind := "fact", symbol := "a2", args := [] }]
                    whens := []
                    thens := [] }] }

/-- What the canonical rendering of `c1_ir0` reparses to: the rendered
`GIVEN foo.` line matches entry `a1`, which precedes `a2`. -/
def c1_ir1 : FeatureIR :=
  { feature_id := "t"
    scenarios := [{ name := "scenario_1"
                    imports := []
                    givens := [{ kind := "fact", symbol := "a1", args := [] }]
                    whens := []
                    thens := [] }] }

/-- A single-entry vocabulary on which the compile gate passes. -/
def c1_demo_vocab : Vocab :=
  { types := []
    derivations := []
    gwt_keywords := []
    entries := [c1_entry_a1] }

/-- What `GIVEN foo.` (in file `demo.txt`) parses to under
`c1_demo_vocab`. -/
def c1_demo_ir : FeatureIR :=
  { feature_id := "demo"
    scenarios := [{ name := "scenario_1"
                    imports := []
                    givens := [{ kind := "fact", symbol := "a1", args := [] }]
                    whens := []
                    thens := [] }] }

/-- The canonical GWT rendering of `c1_demo_ir`. -/
def c1_demo_canonical : String :=
  "; GENERATED FILE - DO NOT EDIT\n; canonicalized from DAL/IR using vocab.yaml\n\n"
    ++ gwt_bar ++ "\n; Scenario 1.\n" ++ gwt_bar ++ "\nGIVEN foo.\n"

/-- The DAL rendering of `c1_demo_ir`. -/
def c1_demo_dal : String :=
  "; GENERATED FILE - DO NOT EDIT\n; source of truth is IR and vocab-driven compiler\n\nFEATURE demo.\n\nSCENARIO scenario_1.\n\nFACT a1().\n"

/-- The serialized IR JSON of `c1_demo_ir`. -/
def c1_demo_json : String :=
  "\x7b\n  \"feature_id\": \"demo\",\n  \"scenarios\": [\n    \x7b\n      \"givens\": [\n        \x7b\n          \"args\": \x7b\x7d,\n          \"kind\": \"fact\",\n          \"symbol\": \"a1\"\n        \x7d\n      ],\n      \"imports\": [],\n      \"name\": \"scenario_1\",\n      \"thens\": [],\n      \"whens\": []\n    \x7d\n  ]\n\x7d\n"

/-- The output paths `compile_spec` reports for `demo.txt`. -/
def c1_demo_outputs : CompileOutputs :=
  { dal := "specs/demo.dal"
    canonical_gwt := "specs/demo.txt.canonical"
    ir := "acceptance-pipeline/ir/demo.json"
    diff := "acceptance-pipeline/roundtrip/demo.diff.txt" }

/-! ### Claims C8 and C9: renderer totality and serialization determinism -/

/-- An IR whose single step's symbol resolves in no vocabulary. -/
def c8_bad_ir : FeatureIR :=
  { feature_id := "f"
    scenarios := [{ name := "s"
                    imports := []
                    givens := [{ kind := "fact", symbol := "nosuch", args := [] }]
                    whens := []
                    thens := [] }] }

/-- A loadable vocabulary with no entries. -/
def c8_empty_vocab : Vocab :=
  { types := [], derivations := [], gwt_keywords := [], entries := [] }

/-- A fact entry with one string argument. -/
def c8_entry : VocabEntry :=
  mkVocabEntry "fact" "flagged" [{ name := "flag", type_name := "text" }] []
    [TPart.lit "GIVEN flag ", TPart.ph "flag", TPart.lit "."] "x"

/-- A vocabulary resolving every step of `c8_demo_ir`. -/
def c8_demo_vocab : Vocab :=
  { types := [], derivations := [], gwt_keywords := [], entries := [c8_entry] }

/-- An IR fully resolvable under `c8_demo_vocab`. -/
def c8_demo_ir : FeatureIR :=
  { feature_id := "f"
    scenarios := [{ name := "s"
                    imports := []
                    givens := [{ kind := "fact", symbol := "flagged",
                                 args := [("flag", .str "on")] }]
                    whens := []
                    thens := [] }] }

/-- Equality of two argument dicts as maps: same key-value pairs
(in any insertion order) with duplicate-free keys — Python dict `==`
restricted to same-typed values. -/
def argsEquiv (d1 d2 : PyDict) : Prop :=
  (∀ kv ∈ d1, kv ∈ d2) ∧ (∀ kv ∈ d2, kv ∈ d1) ∧
    (d1.map Prod.fst).Nodup ∧ (d2.map Prod.fst).Nodup

/-- Step equality up to args-dict insertion order. -/
def StepIR.IREquiv (a b : StepIR) : Prop :=
  a.kind = b.kind ∧ a.symbol = b.symbol ∧ argsEquiv a.args b.args

/-- Scenario equality up to args-dict insertion order. -/
def ScenarioIR.IREquiv (a b : ScenarioIR) : Prop :=
  a.name = b.name ∧ a.imports = b.imports ∧
    List.Forall₂ StepIR.IREquiv a.givens b.givens ∧
    List.Forall₂ StepIR.IREquiv a.whens b.whens ∧
    List.Forall₂ StepIR.IREquiv a.thens b.thens

/-- Feature equality up to args-dict insertion order. -/
def FeatureIR.IREquiv (a b : FeatureIR) : Prop :=
  a.feature_id = b.feature_id ∧
    List.Forall₂ ScenarioIR.IREquiv a.scenarios b.scenarios

/-- Pointwise Python `==` on lists. -/
def listPyEq {α : Type} (eq : α → α → Bool) : List α → List α → Bool
  | [], [] => true
  | a :: as, b :: bs => eq a b && listPyEq eq as bs
  | _, _ => false

/-- Full Python `==` on steps (args dicts compare order-insensitively
and across bool/int as Python does). -/
def StepIR.pyEq (a b : StepIR) : Bool :=
  a.kind == b.kind && a.symbol == b.symbol && pyDictEq a.args b.args

/-- Full Python `==` on scenarios. -/
def ScenarioIR.pyEq (a b : ScenarioIR) : Bool :=
  a.name == b.name && a.imports == b.imports &&
    listPyEq StepIR.pyEq a.givens b.givens &&
    listPyEq StepIR.pyEq a.whens b.whens &&
    listPyEq StepIR.pyEq a.thens b.thens

/-- Full Python `==` on features. -/
def FeatureIR.pyEq (a b : FeatureIR) : Bool :=
  a.feature_id == b.feature_id && listPyEq ScenarioIR.pyEq a.scenarios b.scenarios

/-- A feature whose step argument is the boolean `True`. -/
def c9_fi1 : FeatureIR :=
  { feature_id := "f"
    scenarios := [{ name := "s"
                    imports := []
                    givens := [{ kind := "fact", symbol := "flagged",
                                 args := [("flag", .bool true)] }]
                    whens := []
                    thens := [] }] }

/-- The same feature with the argument `1` — Python-`==` to `c9_fi1`
since `True == 1`. -/
def c9_fi2 : FeatureIR :=
  { feature_id := "f"
    scenarios := [{ name := "s"
                    imports := []
                    givens := [{ kind := "fact", symbol := "flagged",
                                 args := [("flag", .int 1)] }]
                    whens := []
                    thens := [] }] }

/-- `serialize_ir_json c9_fi1`. -/
def c9_json1 : String :=
  "\x7b\n  \"feature_id\": \"f\",\n  \"scenarios\": [\n    \x7b\n      \"givens\": [\n        \x7b\n          \"args\": \x7b\n            \"flag\": true\n          \x7d,\n          \"kind\": \"fact\",\n          \"symbol\": \"flagged\"\n        \x7d\n      ],\n      \"imports\": [],\n      \"name\": \"s\",\n      \"thens\": [],\n      \"whens\": []\n    \x7d\n  ]\n\x7d\n"

/-- `serialize_ir_json c9_fi2`, differing in one byte run. -/
def c9_json2 : String :=
  "\x7b\n  \"feature_id\": \"f\",\n  \"scenarios\": [\n    \x7b\n      \"givens\": [\n        \x7b\n          \"args\": \x7b\n            \"flag\": 1\n          \x7d,\n          \"kind\": \"fact\",\n          \"symbol\": \"flagged\"\n        \x7d\n      ],\n      \"imports\": [],\n      \"name\": \"s\",\n      \"thens\": [],\n      \"whens\": []\n    \x7d\n  ]\n\x7d\n"

/-- A feature with a two-key args dict in one insertion order. -/
def c9_wa : FeatureIR :=
  { feature_id := "w"
    scenarios := [{ name := "s"
                    imports := []
                    givens := [{ kind := "fact", symbol := "g",
                                 args := [("b", .int 2), ("a", .str "x")] }]
                    whens := []
                    thens := [] }] }

/-- The same feature with the args dict in the opposite order. -/
def c9_wb : FeatureIR :=
  { feature_id := "w"
    scenarios := [{ name := "s"
                    imports := []
                    givens := [{ kind := "fact", symbol := "g",
                                 args := [("a", .str "x"), ("b", .int 2)] }]
                    whens := []
                    thens := [] }] }

/-- Concrete scenario of claim C4: GIVEN "no registered users", WHEN
"a user registers", THEN "there is 1 registered user". -/
def scenario_c4 : Scenario :=
  { title := "S1"
    givens := [⟨"GIVEN", "no registered users", 1⟩]
    whens := [⟨"WHEN", "a user registers", 3⟩]
    thens := [⟨"THEN", "there is 1 registered user", 5⟩] }

/-- Combination of an accumulated optional group with newly appended
values, describing one key of a `dictAppend` fold. -/
def optApp {α : Type} (o : Option (List α)) (vs : List α) : Option (List α) :=
  match o, vs with
  | none, [] => none
  | none, vs => some vs
  | some vs₀, vs => some (vs₀ ++ vs)

/-! ### Grouping characterizations -/

/-- Outbound event labels of one state, in transition order: the value
the `state_events` dict of `gaps.py` associates to a present key. -/
def eventsOf (graph : GraphModel) (s : String) : List String :=
  (graph.transitions.filter (fun t => decide (t.from_state = s))).map
    (fun t => t.event)

/-- Transitions of one `(from_state, event)` group, in transition order:
the value the `groups` dict of `gaps._find_contradictions` associates to
a present key. -/
def group_transitions (graph : GraphModel) (f e : String) : List Transition :=
  graph.transitions.filter (fun t => decide ((t.from_state, t.event) = (f, e)))

/-! ### Claims C5, C6, C10 -/

/-- Concrete counterexample graph for claim C5: two transitions out of
"s" carrying the same event label "e". -/
def graph_c5 : GraphModel :=
  { states := [("s", ⟨"s", []⟩), ("t1", ⟨"t1", []⟩), ("t2", ⟨"t2", []⟩)]
    transitions := [⟨"e", "s", "t1", none⟩, ⟨"e", "s", "t2", none⟩]
    entry_points := ["s"]
    terminal_states := ["t1", "t2"] }

/-- First scenario of the C6 concrete example. -/
def scenario_c6a : Scenario :=
  { title := "A"
    givens := [⟨"GIVEN", "1 user", 1⟩]
    whens := [⟨"WHEN", "registers", 2⟩]
    thens := [⟨"THEN", "2 users", 3⟩] }

/-- Second scenario of the C6 concrete example: same precondition and
event, different outcome. -/
def scenario_c6b : Scenario :=
  { title := "B"
    givens := [⟨"GIVEN", "1 user", 1⟩]
    whens := [⟨"WHEN", "registers", 2⟩]
    thens := [⟨"THEN", "registration fails", 3⟩] }

/-- Concrete missing-negative gap produced on the `scenario_c4` graph,
used to witness `c10_missing_negative_has_outbound`. -/
def mn_gap_c4 : Gap :=
  { gap_type := .MISSING_NEGATIVE
    severity := .MEDIUM
    description := "State \"no registered users\" only has positive scenarios. Missing negative cases."
    question := "What happens when a user registers fails?\nWhat happens when a user registers with invalid data?"
    states := ["no registered users"] }

/-! ### State-merging lemmas for claim C3 -/

/-- Every value stored in the states dict carries its own key as label. -/
def KeyInv (d : List (String × State)) : Prop :=
  ∀ l st, dlookup d l = some st → st.label = l

theorem perm_insertOrd {α : Type} (le : α → α → Bool) (a : α) (l : List α) :
    List.Perm (insertOrd le a l) (a :: l) := by
  induction l with
  | nil => rfl
  | cons b l ih =>
      by_cases h : le a b
      · simp [insertOrd, h]
      · simp only [insertOrd, if_neg h]
        exact (ih.cons b).trans (List.Perm.swap a b l)

theorem perm_sortOrd {α : Type} (le : α → α → Bool) (l : List α) :
    List.Perm (sortOrd le l) l := by
  induction l with
  | nil => rfl
  | cons a l ih => exact (perm_insertOrd le a (sortOrd le l)).trans (ih.cons a)

theorem mem_pyDedup {x : String} {l : List String} : x ∈ pyDedup l ↔ x ∈ l := by
  induction l with
  | nil => simp [pyDedup]
  | cons a l ih =>
      by_cases h : a ∈ l
      · have hc : l.contains a = true := List.elem_iff.mpr h
        simp only [pyDedup, hc, if_true, ih, List.mem_cons]
        constructor
        · exact Or.inr
        · rintro (rfl | hx)
          · exact h
          · exact hx
      · have hc : l.contains a = false := by
          rcases hb : l.contains a with _ | _
          · rfl
          · exact absurd (List.elem_iff.mp hb) h
        simp [pyDedup, hc, ih, h]

theorem mem_pySortedSet {x : String} {l : List String} :
    x ∈ pySortedSet l ↔ x ∈ l := by
  unfold pySortedSet
  rw [(perm_sortOrd pyStrLe (pyDedup l)).mem_iff, mem_pyDedup]

theorem pyDedup_length_le (l : List String) : (pyDedup l).length ≤ l.length := by
  induction l with
  | nil => simp [pyDedup]
  | cons a l ih =>
      by_cases h : l.contains a
      · simp only [pyDedup, if_pos h, List.length_cons]
        omega
      · simp only [pyDedup, if_neg h, List.length_cons]
        omega

theorem pySortedSet_length_le (l : List String) :
    (pySortedSet l).length ≤ l.length := by
  unfold pySortedSet
  rw [(perm_sortOrd pyStrLe (pyDedup l)).length_eq]
  exact pyDedup_length_le l

/-! ### Basic lemmas -/

theorem except_bind_ok_inv {ε α β : Type} {m : Except ε α} {k : α → Except ε β}
    {w : β} (h : (m >>= k) = .ok w) : ∃ v, m = .ok v ∧ k v = .ok w := by
  match m, h with
  | .ok v, h => exact ⟨v, rfl, h⟩
  | .error e, h => exact Except.noConfusion h

theorem except_ok_bind {ε α β : Type} (a : α) (f : α → Except ε β) :
    (Except.ok a >>= f : Except ε β) = f a := rfl

theorem dlookup_dictSet_self {κ α : Type} [DecidableEq κ]
    (d : List (κ × α)) (k : κ) (v : α) : dlookup (dictSet d k v) k = some v := by
  induction d with
  | nil => simp [dictSet, dlookup]
  | cons p rest ih =>
      obtain ⟨k', v'⟩ := p
      by_cases h : k' = k <;> simp [dictSet, dlookup, h, ih]

theorem dlookup_dictSet_ne {κ α : Type} [DecidableEq κ]
    (d : List (κ × α)) (k k' : κ) (v : α) (h : k' ≠ k) :
    dlookup (dictSet d k v) k' = dlookup d k' := by
  have h' : ¬ k = k' := fun hk => h hk.symm
  induction d with
  | nil => simp [dictSet, dlookup, h']
  | cons p rest ih =>
      obtain ⟨k₀, v₀⟩ := p
      by_cases hk : k₀ = k
      · subst hk
        simp [dictSet, dlookup, h']
      · simp only [dictSet, if_neg hk, dlookup]
        by_cases hk' : k₀ = k' <;> simp [hk', ih]

theorem contains_false_iff {l : List String} {a : String} :
    (l.contains a = false) ↔ a ∉ l := by
  rw [← Bool.not_eq_true, not_iff_not, List.elem_iff]

theorem mem_c2_entry (ts : List Transition) (s : String) :
    s ∈ pySortedSet ((ts.map (·.from_state)).filter
        (fun x => !(ts.map (·.to_state)).contains x)) ↔
      (∃ t ∈ ts, t.from_state = s) ∧ ∀ t ∈ ts, t.to_state ≠ s := by
  simp only [mem_pySortedSet, List.mem_filter, Bool.not_eq_true',
    contains_false_iff, List.mem_map, not_exists, not_and]

theorem mem_c2_terminal (ts : List Transition) (s : String) :
    s ∈ pySortedSet ((ts.map (·.to_state)).filter
        (fun x => !(ts.map (·.from_state)).contains x)) ↔
      (∃ t ∈ ts, t.to_state = s) ∧ ∀ t ∈ ts, t.from_state ≠ s := by
  simp only [mem_pySortedSet, List.mem_filter, Bool.not_eq_true',
    contains_false_iff, List.mem_map, not_exists, not_and]

theorem build_graph_entry_points_def (pr : ParseResult) :
    (build_graph pr).entry_points =
      pySortedSet (((build_graph pr).transitions.map (·.from_state)).filter
        (fun x => !((build_graph pr).transitions.map (·.to_state)).contains x)) := rfl

theorem build_graph_terminal_states_def (pr : ParseResult) :
    (build_graph pr).terminal_states =
      pySortedSet (((build_graph pr).transitions.map (·.to_state)).filter
        (fun x => !((build_graph pr).transitions.map (·.from_state)).contains x)) := rfl

/-! ### Claim theorems for the graph builder and gap analyzer -/

/-- C2: in the graph returned by `build_graph`, a label is an entry point
iff it is the from-state of some transition and the to-state of none, and
a terminal state iff it is the to-state of some transition and the
from-state of none. -/
theorem c2_entry_terminal_partition (pr : ParseResult) (s : String) :
    (s ∈ (build_graph pr).entry_points ↔
      (∃ t ∈ (build_graph pr).transitions, t.from_state = s) ∧
        ∀ t ∈ (build_graph pr).transitions, t.to_state ≠ s) ∧
    (s ∈ (build_graph pr).terminal_states ↔
      (∃ t ∈ (build_graph pr).transitions, t.to_state = s) ∧
        ∀ t ∈ (build_graph pr).transitions, t.from_state ≠ s) := by
  rw [build_graph_entry_points_def, build_graph_terminal_states_def]
  exact ⟨mem_c2_entry _ s, mem_c2_terminal _ s⟩

/-- C4 counterexample: on the claim's single-scenario graph, no
missing-negative gap mentions "there is 1 registered user" — the
missing-negative detector only examines transition sources, and that state
has no outbound transitions. -/
theorem c4_missing_negative_refuted :
    ¬ ∃ gap ∈ analyze_gaps (build_graph (ParseResult.mk [scenario_c4])) [],
        gap.gap_type = GapType.MISSING_NEGATIVE ∧
          "there is 1 registered user" ∈ gap.states := by
  decide

/-- C4 as amended: the graph facts of the claim all hold (2 states, the
single transition, the entry point, the dead-end gap on "there is 1
registered user"), but the missing-negative gap names "no registered
users" (the transition source), not "there is 1 registered user". -/
theorem c4_single_scenario_graph_and_gaps :
    (build_graph (ParseResult.mk [scenario_c4])).states.map Prod.fst =
        ["no registered users", "there is 1 registered user"] ∧
    (build_graph (ParseResult.mk [scenario_c4])).transitions =
        [⟨"a user registers", "no registered users",
          "there is 1 registered user", some "S1"⟩] ∧
    (build_graph (ParseResult.mk [scenario_c4])).entry_points =
        ["no registered users"] ∧
    (∃ gap ∈ analyze_gaps (build_graph (ParseResult.mk [scenario_c4])) [],
        gap.gap_type = GapType.DEAD_END ∧
          gap.states = ["there is 1 registered user"]) ∧
    (∃ gap ∈ analyze_gaps (build_graph (ParseResult.mk [scenario_c4])) [],
        gap.gap_type = GapType.MISSING_NEGATIVE ∧
          gap.states = ["no registered users"]) ∧
    ¬ ∃ gap ∈ analyze_gaps (build_graph (ParseResult.mk [scenario_c4])) [],
        gap.gap_type = GapType.MISSING_NEGATIVE ∧
          "there is 1 registered user" ∈ gap.states := by
  decide

/-! ### Dictionary grouping lemmas -/

theorem dlookup_dictAppend_self {κ α : Type} [DecidableEq κ]
    (d : List (κ × List α)) (k : κ) (v : α) :
    dlookup (dictAppend d k v) k = some ((dlookup d k).getD [] ++ [v]) := by
  induction d with
  | nil => simp [dictAppend, dlookup]
  | cons p rest ih =>
      obtain ⟨k', vs⟩ := p
      by_cases h : k' = k
      · subst h
        simp [dictAppend, dlookup]
      · simp [dictAppend, dlookup, h, ih]

theorem dlookup_dictAppend_ne {κ α : Type} [DecidableEq κ]
    (d : List (κ × List α)) (k k' : κ) (v : α) (h : k' ≠ k) :
    dlookup (dictAppend d k v) k' = dlookup d k' := by
  have h' : ¬ k = k' := fun hk => h hk.symm
  induction d with
  | nil => simp [dictAppend, dlookup, h']
  | cons p rest ih =>
      obtain ⟨k₀, vs₀⟩ := p
      by_cases hk : k₀ = k
      · subst hk
        simp [dictAppend, dlookup, h']
      · simp only [dictAppend, if_neg hk, dlookup]
        by_cases hk' : k₀ = k' <;> simp [hk', ih]

theorem dlookup_foldl_dictAppend {κ α β : Type} [DecidableEq κ]
    (key : β → κ) (val : β → α) (l : List β) (d₀ : List (κ × List α)) (k : κ) :
    dlookup (l.foldl (fun d b => dictAppend d (key b) (val b)) d₀) k
      = optApp (dlookup d₀ k)
          ((l.filter (fun b => decide (key b = k))).map val) := by
  induction l generalizing d₀ with
  | nil =>
      cases h : dlookup d₀ k <;> simp [optApp, h]
  | cons b l ih =>
      simp only [List.foldl_cons]
      rw [ih]
      by_cases hk : key b = k
      · subst hk
        rw [dlookup_dictAppend_self]
        cases h : dlookup d₀ (key b) <;>
          simp [optApp, h, List.filter_cons]
      · rw [dlookup_dictAppend_ne _ _ _ _ (fun he => hk he.symm)]
        simp [List.filter_cons, hk]

theorem mem_keys_dictAppend {κ α : Type} [DecidableEq κ]
    (d : List (κ × List α)) (k k' : κ) (v : α) :
    k' ∈ (dictAppend d k v).map Prod.fst ↔ k' ∈ d.map Prod.fst ∨ k' = k := by
  induction d with
  | nil => simp [dictAppend]
  | cons p rest ih =>
      obtain ⟨k₀, vs₀⟩ := p
      by_cases hk : k₀ = k
      · subst hk
        have he : dictAppend ((k₀, vs₀) :: rest) k₀ v = (k₀, vs₀ ++ [v]) :: rest := by
          simp [dictAppend]
        rw [he]
        simp only [List.map_cons, List.mem_cons]
        tauto
      · simp only [dictAppend, if_neg hk, List.map_cons, List.mem_cons, ih]
        tauto

theorem nodupKeys_dictAppend {κ α : Type} [DecidableEq κ]
    (d : List (κ × List α)) (k : κ) (v : α)
    (h : (d.map Prod.fst).Nodup) : ((dictAppend d k v).map Prod.fst).Nodup := by
  induction d with
  | nil => simp [dictAppend]
  | cons p rest ih =>
      obtain ⟨k₀, vs₀⟩ := p
      simp only [List.map_cons, List.nodup_cons] at h
      by_cases hk : k₀ = k
      · subst hk
        have he : dictAppend ((k₀, vs₀) :: rest) k₀ v = (k₀, vs₀ ++ [v]) :: rest := by
          simp [dictAppend]
        rw [he]
        simp only [List.map_cons, List.nodup_cons]
        exact ⟨h.1, h.2⟩
      · simp only [dictAppend, if_neg hk, List.map_cons, List.nodup_cons]
        refine ⟨?_, ih h.2⟩
        rw [mem_keys_dictAppend]
        rintro (hm | rfl)
        · exact h.1 hm
        · exact hk rfl

theorem nodupKeys_foldl_dictAppend {κ α β : Type} [DecidableEq κ]
    (key : β → κ) (val : β → α) (l : List β) (d₀ : List (κ × List α))
    (h₀ : (d₀.map Prod.fst).Nodup) :
    ((l.foldl (fun d b => dictAppend d (key b) (val b)) d₀).map Prod.fst).Nodup := by
  induction l generalizing d₀ with
  | nil => exact h₀
  | cons b l ih =>
      simp only [List.foldl_cons]
      exact ih _ (nodupKeys_dictAppend _ _ _ h₀)

theorem mem_of_dlookup {κ α : Type} [DecidableEq κ]
    {d : List (κ × α)} {k : κ} {v : α} (h : dlookup d k = some v) : (k, v) ∈ d := by
  induction d with
  | nil => simp [dlookup] at h
  | cons p rest ih =>
      obtain ⟨k₀, v₀⟩ := p
      by_cases hk : k₀ = k
      · subst hk
        have he : dlookup ((k₀, v₀) :: rest) k₀ = some v₀ := by simp [dlookup]
        rw [he, Option.some.injEq] at h
        subst h
        exact List.mem_cons_self _ _
      · simp only [dlookup, if_neg hk] at h
        exact List.mem_cons_of_mem _ (ih h)

theorem dlookup_of_mem_nodup {κ α : Type} [DecidableEq κ]
    {d : List (κ × α)} {k : κ} {v : α}
    (hn : (d.map Prod.fst).Nodup) (h : (k, v) ∈ d) : dlookup d k = some v := by
  induction d with
  | nil => simp at h
  | cons p rest ih =>
      obtain ⟨k₀, v₀⟩ := p
      simp only [List.map_cons, List.nodup_cons] at hn
      rcases List.mem_cons.mp h with he | hm
      · obtain ⟨rfl, rfl⟩ := Prod.mk.injEq .. ▸ he
        simp [dlookup]
      · have hk : k₀ ≠ k := by
          rintro rfl
          exact hn.1 (List.mem_map.mpr ⟨(k₀, v), hm, rfl⟩)
        simp only [dlookup, if_neg hk]
        exact ih hn.2 hm

/-! ### Triage suppression lemmas -/

theorem isTriaged_nil (d : String) : isTriaged [] d = false := rfl

theorem suppress_nil (o : Option Gap) : suppress [] o = o := by
  cases o with
  | none => rfl
  | some gap => simp [suppress, isTriaged_nil]

theorem filterMap_suppress_nil {α : Type} (cand : α → Option Gap) (l : List α) :
    l.filterMap (fun a => suppress [] (cand a)) = l.filterMap cand := by
  simp [suppress_nil]

theorem filterMap_suppress_filter {α : Type} (t : List (String × String))
    (cand : α → Option Gap) (l : List α) :
    l.filterMap (fun a => suppress t (cand a)) =
      (l.filterMap cand).filter (fun gap => !isTriaged t gap.description) := by
  induction l with
  | nil => rfl
  | cons a l ih =>
      cases h : cand a with
      | none =>
          have hs : suppress t none = none := rfl
          simp [List.filterMap_cons, h, hs, ih]
      | some gap =>
          have hs : suppress t (some gap) =
              if isTriaged t gap.description then none else some gap := rfl
          cases ht : isTriaged t gap.description with
          | false => simp [List.filterMap_cons, h, hs, ht, List.filter_cons, ih]
          | true => simp [List.filterMap_cons, h, hs, ht, List.filter_cons, ih]

theorem find_dead_ends_eq_filter (g : GraphModel) (t : List (String × String)) :
    find_dead_ends g t =
      (find_dead_ends g []).filter (fun gap => !isTriaged t gap.description) := by
  unfold find_dead_ends
  rw [filterMap_suppress_filter, filterMap_suppress_nil]

theorem find_unreachable_eq_filter (g : GraphModel) (t : List (String × String)) :
    find_unreachable g t =
      (find_unreachable g []).filter (fun gap => !isTriaged t gap.description) := by
  unfold find_unreachable
  rw [filterMap_suppress_filter, filterMap_suppress_nil]

theorem find_missing_error_eq_filter (g : GraphModel) (t : List (String × String)) :
    find_missing_error_transitions g t =
      (find_missing_error_transitions g []).filter
        (fun gap => !isTriaged t gap.description) := by
  unfold find_missing_error_transitions
  rw [filterMap_suppress_filter, filterMap_suppress_nil]

theorem find_contradictions_eq_filter (g : GraphModel) (t : List (String × String)) :
    find_contradictions g t =
      (find_contradictions g []).filter
        (fun gap => !isTriaged t gap.description) := by
  unfold find_contradictions
  rw [filterMap_suppress_filter, filterMap_suppress_nil]

theorem find_missing_negatives_eq_filter (g : GraphModel)
    (t : List (String × String)) :
    find_missing_negatives g t =
      (find_missing_negatives g []).filter
        (fun gap => !isTriaged t gap.description) := by
  unfold find_missing_negatives
  rw [filterMap_suppress_filter, filterMap_suppress_nil]

theorem analyze_gaps_eq_filter (g : GraphModel) (t : List (String × String)) :
    analyze_gaps g t =
      (analyze_gaps g []).filter (fun gap => !isTriaged t gap.description) := by
  unfold analyze_gaps
  rw [find_dead_ends_eq_filter, find_unreachable_eq_filter,
    find_missing_error_eq_filter, find_contradictions_eq_filter,
    find_missing_negatives_eq_filter]
  simp [List.filter_append]

theorem dmem_iff_mem_keys {κ α : Type} [DecidableEq κ]
    (d : List (κ × α)) (k : κ) : dmem d k = true ↔ k ∈ d.map Prod.fst := by
  induction d with
  | nil => simp [dmem, dlookup]
  | cons p rest ih =>
      obtain ⟨k₀, v₀⟩ := p
      by_cases h : k₀ = k
      · subst h
        simp [dmem, dlookup]
      · have he : dmem ((k₀, v₀) :: rest) k = dmem rest k := by
          simp [dmem, dlookup, h]
        rw [he, ih, List.map_cons, List.mem_cons]
        constructor
        · exact Or.inr
        · rintro (rfl | hm)
          · exact absurd rfl h
          · exact hm

/-- C7: triaging every description produced by a run of `analyze_gaps`
suppresses every gap of a re-run over the same graph, so the re-run's gap
count strictly decreases whenever the first run found any gap and stays
zero otherwise. -/
theorem c7_triage_strictly_reduces (graph : GraphModel) :
    (analyze_gaps graph [] ≠ [] →
      (analyze_gaps graph
          ((analyze_gaps graph []).map
            (fun gap => (gap.description, "intentional")))).length <
        (analyze_gaps graph []).length) ∧
    (analyze_gaps graph [] = [] →
      (analyze_gaps graph
          ((analyze_gaps graph []).map
            (fun gap => (gap.description, "intentional")))).length = 0) := by
  have hzero : analyze_gaps graph
      ((analyze_gaps graph []).map (fun gap => (gap.description, "intentional"))) = [] := by
    rw [analyze_gaps_eq_filter]
    apply List.filter_eq_nil_iff.mpr
    intro gap hmem
    have ht : isTriaged
        ((analyze_gaps graph []).map (fun gap => (gap.description, "intentional")))
        gap.description = true := by
      rw [isTriaged, dmem_iff_mem_keys]
      rw [List.map_map]
      exact List.mem_map.mpr ⟨gap, hmem, rfl⟩
    simp [ht]
  refine ⟨fun hne => ?_, fun he => ?_⟩
  · rw [hzero]
    simpa [List.length_pos] using hne
  · rw [hzero]
    rfl

/-! ### Candidate inversion lemmas -/

theorem dead_end_candidate_some {g : GraphModel} {label : String} {gap : Gap}
    (h : dead_end_candidate g label = some gap) :
    gap.gap_type = GapType.DEAD_END ∧ gap.severity = Severity.MEDIUM ∧
      gap.states = [label] := by
  simp only [dead_end_candidate] at h
  split at h
  · cases h
    exact ⟨rfl, rfl, rfl⟩
  · cases h

theorem unreachable_candidate_some {g : GraphModel} {label : String} {gap : Gap}
    (h : unreachable_candidate g label = some gap) :
    gap.gap_type = GapType.UNREACHABLE ∧ gap.severity = Severity.HIGH ∧
      gap.states = [label] := by
  simp only [unreachable_candidate] at h
  split at h
  · split at h
    · cases h
    · cases h
      exact ⟨rfl, rfl, rfl⟩
  · cases h

theorem missing_error_candidate_some {state : String} {events : List String}
    {gap : Gap} (h : missing_error_candidate state events = some gap) :
    gap.gap_type = GapType.MISSING_ERROR ∧ gap.severity = Severity.LOW ∧
      gap.states = [state] ∧ gap.transitions = events ∧
      gap.question = s!"What happens when a {state} encounters an error?" ∧
      (∀ e ∈ events, has_error_word e = false) ∧ 2 ≤ events.length := by
  simp only [missing_error_candidate] at h
  split at h
  · next hcond =>
      rw [Bool.and_eq_true, Bool.not_eq_true', decide_eq_true_eq] at hcond
      cases h
      refine ⟨rfl, rfl, rfl, rfl, rfl, ?_, hcond.2⟩
      intro e he
      have := hcond.1
      rw [List.any_eq_false] at this
      have he' := this e he
      rcases hb : has_error_word e with _ | _
      · rfl
      · exact absurd hb he'
  · cases h

theorem missing_error_candidate_isSome {state : String} {events : List String}
    (h1 : ∀ e ∈ events, has_error_word e = false) (h2 : 2 ≤ events.length) :
    ∃ gap, missing_error_candidate state events = some gap := by
  unfold missing_error_candidate
  have hany : events.any has_error_word = false := by
    rw [List.any_eq_false]
    intro e he
    rw [h1 e he]
    exact Bool.false_ne_true
  by_cases hc : (!events.any has_error_word && decide (2 ≤ events.length)) = true
  · rw [if_pos hc]
    exact ⟨_, rfl⟩
  · exfalso
    apply hc
    rw [hany]
    simp [h2]

theorem contradiction_candidate_some {key : String × String}
    {ts : List Transition} {gap : Gap}
    (h : contradiction_candidate key ts = some gap) :
    gap.gap_type = GapType.CONTRADICTION ∧ gap.severity = Severity.HIGH ∧
      gap.states = [key.1] ++ pySortedSet (ts.map (·.to_state)) ∧
      gap.transitions = (truthy_source_scenarios ts).map
        (fun s => s!"{key.2} (from {s})") ∧
      2 ≤ (pySortedSet (ts.map (·.to_state))).length := by
  simp only [contradiction_candidate] at h
  split at h
  · next hcond =>
      rw [decide_eq_true_eq] at hcond
      cases h
      exact ⟨rfl, rfl, rfl, rfl, hcond⟩
  · cases h

theorem contradiction_candidate_isSome (key : String × String)
    (ts : List Transition) :
    (contradiction_candidate key ts).isSome =
      decide (2 ≤ (pySortedSet (ts.map (·.to_state))).length) := by
  unfold contradiction_candidate
  by_cases hc : 1 < (pySortedSet (ts.map (·.to_state))).length
  · rw [if_pos (by simpa using hc)]
    have h2 : 2 ≤ (pySortedSet (ts.map (·.to_state))).length := hc
    simp [h2]
  · rw [if_neg (by simpa using hc)]
    have h2 : ¬ 2 ≤ (pySortedSet (ts.map (·.to_state))).length := by omega
    simp [h2]

theorem missing_negative_candidate_some {state : String} {events : List String}
    {gap : Gap} (h : missing_negative_candidate state events = some gap) :
    gap.gap_type = GapType.MISSING_NEGATIVE ∧ gap.severity = Severity.MEDIUM ∧
      gap.states = [state] ∧ ∀ e ∈ events, has_negative_word e = false := by
  simp only [missing_negative_candidate] at h
  split at h
  · cases h
  · next hcond =>
      cases h
      refine ⟨rfl, rfl, rfl, ?_⟩
      intro e he
      have hf : events.any has_negative_word = false := by
        rcases hb : events.any has_negative_word with _ | _
        · rfl
        · exact absurd hb hcond
      rw [List.any_eq_false] at hf
      have hne := hf e he
      rcases hb : has_negative_word e with _ | _
      · rfl
      · exact absurd hb hne

theorem missing_negative_candidate_isSome {state : String} {events : List String}
    (h1 : ∀ e ∈ events, has_negative_word e = false) :
    ∃ gap, missing_negative_candidate state events = some gap := by
  unfold missing_negative_candidate
  have hany : events.any has_negative_word = false := by
    rw [List.any_eq_false]
    intro e he
    rw [h1 e he]
    exact Bool.false_ne_true
  rw [hany]
  exact ⟨_, rfl⟩

theorem dlookup_state_events (g : GraphModel) (s : String) :
    dlookup (state_events g) s = optApp none (eventsOf g s) := by
  unfold state_events eventsOf
  exact dlookup_foldl_dictAppend (fun t : Transition => t.from_state)
    (fun t : Transition => t.event) g.transitions [] s

theorem nodupKeys_state_events (g : GraphModel) :
    ((state_events g).map Prod.fst).Nodup := by
  unfold state_events
  exact nodupKeys_foldl_dictAppend (fun t : Transition => t.from_state)
    (fun t : Transition => t.event) g.transitions [] (by simp)

theorem mem_state_events {g : GraphModel} {kv : String × List String}
    (h : kv ∈ state_events g) : kv.2 = eventsOf g kv.1 ∧ kv.2 ≠ [] := by
  obtain ⟨k, vs⟩ := kv
  have hl : dlookup (state_events g) k = some vs :=
    dlookup_of_mem_nodup (nodupKeys_state_events g) h
  rw [dlookup_state_events] at hl
  cases he : eventsOf g k with
  | nil =>
      rw [he] at hl
      cases hl
  | cons e es =>
      rw [he] at hl
      have heq : some (e :: es) = some vs := hl
      rw [Option.some.injEq] at heq
      subst heq
      exact ⟨rfl, by simp⟩

theorem state_events_mem_of_ne {g : GraphModel} {s : String}
    (h : eventsOf g s ≠ []) : (s, eventsOf g s) ∈ state_events g := by
  apply mem_of_dlookup
  rw [dlookup_state_events]
  cases he : eventsOf g s with
  | nil => exact absurd he h
  | cons e es => rfl

theorem dlookup_transition_groups (g : GraphModel) (f e : String) :
    dlookup (transition_groups g) (f, e) =
      optApp none (group_transitions g f e) := by
  have h := dlookup_foldl_dictAppend (fun t => (t.from_state, t.event))
    (fun t => t) g.transitions [] (f, e)
  simpa [group_transitions] using h

theorem nodupKeys_transition_groups (g : GraphModel) :
    ((transition_groups g).map Prod.fst).Nodup := by
  unfold transition_groups
  exact nodupKeys_foldl_dictAppend (fun t : Transition => (t.from_state, t.event))
    (fun t : Transition => t) g.transitions [] (by simp)

theorem mem_transition_groups {g : GraphModel}
    {kv : (String × String) × List Transition} (h : kv ∈ transition_groups g) :
    kv.2 = group_transitions g kv.1.1 kv.1.2 ∧ kv.2 ≠ [] := by
  obtain ⟨⟨f, e⟩, vs⟩ := kv
  have hl : dlookup (transition_groups g) (f, e) = some vs :=
    dlookup_of_mem_nodup (nodupKeys_transition_groups g) h
  rw [dlookup_transition_groups] at hl
  cases he : group_transitions g f e with
  | nil =>
      rw [he] at hl
      cases hl
  | cons t ts =>
      rw [he] at hl
      have heq : some (t :: ts) = some vs := hl
      rw [Option.some.injEq] at heq
      subst heq
      exact ⟨rfl, by simp⟩

theorem transition_groups_mem_of_ne {g : GraphModel} {f e : String}
    (h : group_transitions g f e ≠ []) :
    ((f, e), group_transitions g f e) ∈ transition_groups g := by
  apply mem_of_dlookup
  rw [dlookup_transition_groups]
  cases he : group_transitions g f e with
  | nil => exact absurd he h
  | cons t ts => rfl

/-! ### Substring helper -/

theorem containsAux_append (needle post : List Char)
    (h : needle.isPrefixOf post = true) :
    ∀ pre : List Char, containsAux needle (pre ++ post) = true := by
  intro pre
  induction pre with
  | nil =>
      cases post with
      | nil => simpa [containsAux] using h
      | cons c cs => simp [containsAux, h]
  | cons c p ih => simp [containsAux, ih]

theorem pyContains_mid (a s b : String) : pyContains (a ++ s ++ b) s = true := by
  unfold pyContains
  have hd : (a ++ s ++ b).data = a.data ++ (s.data ++ b.data) := by
    simp [List.append_assoc]
  rw [hd]
  apply containsAux_append
  rw [List.isPrefixOf_iff_prefix]
  exact List.prefix_append _ _

/-! ### Untriaged detector forms and gap types -/

theorem find_dead_ends_nil_eq (g : GraphModel) :
    find_dead_ends g [] = (g.states.map Prod.fst).filterMap (dead_end_candidate g) := by
  unfold find_dead_ends
  exact filterMap_suppress_nil _ _

theorem find_unreachable_nil_eq (g : GraphModel) :
    find_unreachable g [] =
      (g.states.map Prod.fst).filterMap (unreachable_candidate g) := by
  unfold find_unreachable
  exact filterMap_suppress_nil _ _

theorem find_missing_error_nil_eq (g : GraphModel) :
    find_missing_error_transitions g [] =
      (state_events g).filterMap (fun kv => missing_error_candidate kv.1 kv.2) := by
  unfold find_missing_error_transitions
  exact filterMap_suppress_nil _ _

theorem find_contradictions_nil_eq (g : GraphModel) :
    find_contradictions g [] =
      (transition_groups g).filterMap
        (fun kv => contradiction_candidate kv.1 kv.2) := by
  unfold find_contradictions
  exact filterMap_suppress_nil _ _

theorem find_missing_negatives_nil_eq (g : GraphModel) :
    find_missing_negatives g [] =
      (state_events g).filterMap
        (fun kv => missing_negative_candidate kv.1 kv.2) := by
  unfold find_missing_negatives
  exact filterMap_suppress_nil _ _

theorem gap_type_of_find_dead_ends {g : GraphModel} {gap : Gap}
    (h : gap ∈ find_dead_ends g []) : gap.gap_type = GapType.DEAD_END := by
  rw [find_dead_ends_nil_eq] at h
  obtain ⟨a, _, hc⟩ := List.mem_filterMap.mp h
  exact (dead_end_candidate_some hc).1

theorem gap_type_of_find_unreachable {g : GraphModel} {gap : Gap}
    (h : gap ∈ find_unreachable g []) : gap.gap_type = GapType.UNREACHABLE := by
  rw [find_unreachable_nil_eq] at h
  obtain ⟨a, _, hc⟩ := List.mem_filterMap.mp h
  exact (unreachable_candidate_some hc).1

theorem gap_type_of_find_missing_error {g : GraphModel} {gap : Gap}
    (h : gap ∈ find_missing_error_transitions g []) :
    gap.gap_type = GapType.MISSING_ERROR := by
  rw [find_missing_error_nil_eq] at h
  obtain ⟨a, _, hc⟩ := List.mem_filterMap.mp h
  exact (missing_error_candidate_some hc).1

theorem gap_type_of_find_contradictions {g : GraphModel} {gap : Gap}
    (h : gap ∈ find_contradictions g []) :
    gap.gap_type = GapType.CONTRADICTION := by
  rw [find_contradictions_nil_eq] at h
  obtain ⟨a, _, hc⟩ := List.mem_filterMap.mp h
  exact (contradiction_candidate_some hc).1

theorem gap_type_of_find_missing_negatives {g : GraphModel} {gap : Gap}
    (h : gap ∈ find_missing_negatives g []) :
    gap.gap_type = GapType.MISSING_NEGATIVE := by
  rw [find_missing_negatives_nil_eq] at h
  obtain ⟨a, _, hc⟩ := List.mem_filterMap.mp h
  exact (missing_negative_candidate_some hc).1

theorem mem_analyze_iff_missing_error {g : GraphModel} {gap : Gap} :
    (gap ∈ analyze_gaps g [] ∧ gap.gap_type = GapType.MISSING_ERROR) ↔
      gap ∈ find_missing_error_transitions g [] := by
  constructor
  · rintro ⟨hm, ht⟩
    unfold analyze_gaps at hm
    simp only [List.mem_append] at hm
    rcases hm with ((((h | h) | h) | h) | h)
    · rw [gap_type_of_find_dead_ends h] at ht
      cases ht
    · rw [gap_type_of_find_unreachable h] at ht
      cases ht
    · exact h
    · rw [gap_type_of_find_contradictions h] at ht
      cases ht
    · rw [gap_type_of_find_missing_negatives h] at ht
      cases ht
  · intro h
    refine ⟨?_, gap_type_of_find_missing_error h⟩
    unfold analyze_gaps
    simp only [List.mem_append]
    tauto

theorem mem_analyze_iff_contradiction {g : GraphModel} {gap : Gap} :
    (gap ∈ analyze_gaps g [] ∧ gap.gap_type = GapType.CONTRADICTION) ↔
      gap ∈ find_contradictions g [] := by
  constructor
  · rintro ⟨hm, ht⟩
    unfold analyze_gaps at hm
    simp only [List.mem_append] at hm
    rcases hm with ((((h | h) | h) | h) | h)
    · rw [gap_type_of_find_dead_ends h] at ht
      cases ht
    · rw [gap_type_of_find_unreachable h] at ht
      cases ht
    · rw [gap_type_of_find_missing_error h] at ht
      cases ht
    · exact h
    · rw [gap_type_of_find_missing_negatives h] at ht
      cases ht
  · intro h
    refine ⟨?_, gap_type_of_find_contradictions h⟩
    unfold analyze_gaps
    simp only [List.mem_append]
    tauto

theorem mem_analyze_iff_missing_negative {g : GraphModel} {gap : Gap} :
    (gap ∈ analyze_gaps g [] ∧ gap.gap_type = GapType.MISSING_NEGATIVE) ↔
      gap ∈ find_missing_negatives g [] := by
  constructor
  · rintro ⟨hm, ht⟩
    unfold analyze_gaps at hm
    simp only [List.mem_append] at hm
    rcases hm with ((((h | h) | h) | h) | h)
    · rw [gap_type_of_find_dead_ends h] at ht
      cases ht
    · rw [gap_type_of_find_unreachable h] at ht
      cases ht
    · rw [gap_type_of_find_missing_error h] at ht
      cases ht
    · rw [gap_type_of_find_contradictions h] at ht
      cases ht
    · exact h
  · intro h
    refine ⟨?_, gap_type_of_find_missing_negatives h⟩
    unfold analyze_gaps
    simp only [List.mem_append]
    tauto

/-- C5 counterexample: on `graph_c5` the analyzer reports a missing-error
gap for "s" although "s" has only one distinct outbound event label — the
code tests `len(events) >= 2` on the multiset of events, not on distinct
labels as the claim states. -/
theorem c5_distinct_labels_refuted :
    ¬ ((∃ gap ∈ analyze_gaps graph_c5 [], gap.gap_type = GapType.MISSING_ERROR ∧
          gap.states = ["s"]) →
        2 ≤ (pySortedSet (eventsOf graph_c5 "s")).length) := by
  decide

/-- C5 as amended: a missing-error gap for state `s` appears exactly when
`s` has at least 2 outbound transitions (event labels counted with
multiplicity) and none of their labels case-insensitively contains
"error", "fail" or "invalid"; every missing-error gap has severity low
and a question containing the state name. -/
theorem c5_missing_error_characterization (graph : GraphModel) (s : String) :
    ((∃ gap ∈ analyze_gaps graph [], gap.gap_type = GapType.MISSING_ERROR ∧
        gap.states = [s]) ↔
      (2 ≤ (eventsOf graph s).length ∧
        ∀ e ∈ eventsOf graph s, has_error_word e = false)) ∧
    (∀ gap ∈ analyze_gaps graph [], gap.gap_type = GapType.MISSING_ERROR →
      gap.severity = Severity.LOW ∧
        ∃ s', gap.states = [s'] ∧ pyContains gap.question s' = true) := by
  constructor
  · constructor
    · rintro ⟨gap, hmem, htype, hstates⟩
      have hfm := mem_analyze_iff_missing_error.mp ⟨hmem, htype⟩
      rw [find_missing_error_nil_eq] at hfm
      obtain ⟨kv, hkv, hc⟩ := List.mem_filterMap.mp hfm
      obtain ⟨_, _, hst, _, _, herr, hlen⟩ := missing_error_candidate_some hc
      have hks : kv.1 = s := by
        rw [hst] at hstates
        exact (List.cons_eq_cons.mp hstates).1
      obtain ⟨hev, _⟩ := mem_state_events hkv
      rw [hks] at hev
      rw [hev] at herr hlen
      exact ⟨hlen, herr⟩
    · rintro ⟨hlen, herr⟩
      have hne : eventsOf graph s ≠ [] := by
        intro h
        rw [h] at hlen
        simp at hlen
      have hkv := state_events_mem_of_ne hne
      obtain ⟨gap, hc⟩ := missing_error_candidate_isSome herr hlen
      have hmemfm : gap ∈ find_missing_error_transitions graph [] := by
        rw [find_missing_error_nil_eq]
        exact List.mem_filterMap.mpr ⟨(s, eventsOf graph s), hkv, hc⟩
      have hin := mem_analyze_iff_missing_error.mpr hmemfm
      obtain ⟨_, _, hst, _, _, _, _⟩ := missing_error_candidate_some hc
      exact ⟨gap, hin.1, hin.2, hst⟩
  · intro gap hmem htype
    have hfm := mem_analyze_iff_missing_error.mp ⟨hmem, htype⟩
    rw [find_missing_error_nil_eq] at hfm
    obtain ⟨kv, hkv, hc⟩ := List.mem_filterMap.mp hfm
    obtain ⟨_, hsev, hst, _, hq, _, _⟩ := missing_error_candidate_some hc
    refine ⟨hsev, kv.1, hst, ?_⟩
    rw [hq]
    exact pyContains_mid "What happens when a " kv.1 " encounters an error?"

theorem length_filterMap_eq_length_filter {α β : Type}
    (f : α → Option β) (l : List α) :
    (l.filterMap f).length = (l.filter (fun a => (f a).isSome)).length := by
  induction l with
  | nil => rfl
  | cons a l ih =>
      cases h : f a <;> simp [List.filterMap_cons, List.filter_cons, h, ih]

/-- C6: every contradiction gap has severity high and lists the group's
from-state followed by all distinct to-states (sorted), with the event
label carrying the originating scenario titles; the number of
contradiction gaps equals the number of (from-state, event) groups with
more than one distinct to-state, the groups being keyed by exactly the
pairs occurring among the transitions; and the claim's two-scenario
example yields exactly one contradiction gap referencing state "1 user"
and event "registers". -/
theorem c6_contradiction_gaps (graph : GraphModel) :
    (∀ gap ∈ analyze_gaps graph [], gap.gap_type = GapType.CONTRADICTION →
      gap.severity = Severity.HIGH ∧
      ∃ f e,
        2 ≤ (pySortedSet ((group_transitions graph f e).map (·.to_state))).length ∧
        gap.states =
          [f] ++ pySortedSet ((group_transitions graph f e).map (·.to_state)) ∧
        gap.transitions =
          (truthy_source_scenarios (group_transitions graph f e)).map
            (fun sc => s!"{e} (from {sc})")) ∧
    (((analyze_gaps graph []).filter
        (fun gap => gap.gap_type == GapType.CONTRADICTION)).length =
      ((transition_groups graph).filter
        (fun kv => decide (2 ≤ (pySortedSet (kv.2.map (·.to_state))).length))).length) ∧
    (∀ f e, dmem (transition_groups graph) (f, e) = true ↔
      ∃ t ∈ graph.transitions, t.from_state = f ∧ t.event = e) ∧
    ((analyze_gaps (build_graph (ParseResult.mk [scenario_c6a, scenario_c6b])) []).filter
        (fun gap => gap.gap_type == GapType.CONTRADICTION)).length = 1 ∧
    (∀ gap ∈ (analyze_gaps (build_graph
          (ParseResult.mk [scenario_c6a, scenario_c6b])) []).filter
        (fun gap => gap.gap_type == GapType.CONTRADICTION),
      gap.states.head? = some "1 user" ∧
        pyContains gap.description "registers" = true ∧
        pyContains gap.description "1 user" = true) := by
  refine ⟨?_, ?_, ?_, by decide, by decide⟩
  · intro gap hmem htype
    have hfc := mem_analyze_iff_contradiction.mp ⟨hmem, htype⟩
    rw [find_contradictions_nil_eq] at hfc
    obtain ⟨kv, hkv, hc⟩ := List.mem_filterMap.mp hfc
    obtain ⟨_, hsev, hst, htr, hlen⟩ := contradiction_candidate_some hc
    obtain ⟨hgroup, _⟩ := mem_transition_groups hkv
    refine ⟨hsev, kv.1.1, kv.1.2, ?_, ?_, ?_⟩
    · rw [← hgroup]
      exact hlen
    · rw [← hgroup]
      exact hst
    · rw [← hgroup]
      exact htr
  · have hfilter : (analyze_gaps graph []).filter
        (fun gap => gap.gap_type == GapType.CONTRADICTION) =
        find_contradictions graph [] := by
      unfold analyze_gaps
      rw [List.filter_append, List.filter_append, List.filter_append,
        List.filter_append]
      have h1 : (find_dead_ends graph []).filter
          (fun gap => gap.gap_type == GapType.CONTRADICTION) = [] :=
        List.filter_eq_nil_iff.mpr (fun gap h => by
          simp [gap_type_of_find_dead_ends h])
      have h2 : (find_unreachable graph []).filter
          (fun gap => gap.gap_type == GapType.CONTRADICTION) = [] :=
        List.filter_eq_nil_iff.mpr (fun gap h => by
          simp [gap_type_of_find_unreachable h])
      have h3 : (find_missing_error_transitions graph []).filter
          (fun gap => gap.gap_type == GapType.CONTRADICTION) = [] :=
        List.filter_eq_nil_iff.mpr (fun gap h => by
          simp [gap_type_of_find_missing_error h])
      have h5 : (find_missing_negatives graph []).filter
          (fun gap => gap.gap_type == GapType.CONTRADICTION) = [] :=
        List.filter_eq_nil_iff.mpr (fun gap h => by
          simp [gap_type_of_find_missing_negatives h])
      have h4 : (find_contradictions graph []).filter
          (fun gap => gap.gap_type == GapType.CONTRADICTION) =
          find_contradictions graph [] :=
        List.filter_eq_self.mpr (fun gap h => by
          simp [gap_type_of_find_contradictions h])
      rw [h1, h2, h3, h4, h5]
      simp
    rw [hfilter, find_contradictions_nil_eq,
      length_filterMap_eq_length_filter]
    congr 1
    apply List.filter_congr
    intro kv _
    exact contradiction_candidate_isSome kv.1 kv.2
  · intro f e
    rw [dmem_iff_mem_keys]
    constructor
    · intro hk
      obtain ⟨kv, hkv, hfst⟩ := List.mem_map.mp hk
      obtain ⟨hgroup, hne⟩ := mem_transition_groups hkv
      rw [hfst] at hgroup
      rw [hgroup] at hne
      obtain ⟨t, ht⟩ := List.exists_mem_of_ne_nil _ hne
      rw [group_transitions, List.mem_filter] at ht
      have hpair : (t.from_state, t.event) = (f, e) := of_decide_eq_true ht.2
      have h1 : t.from_state = f := congrArg Prod.fst hpair
      have h2 : t.event = e := congrArg Prod.snd hpair
      exact ⟨t, ht.1, h1, h2⟩
    · intro ⟨t, htmem, hf, he⟩
      have htg : t ∈ group_transitions graph f e := by
        rw [group_transitions, List.mem_filter]
        exact ⟨htmem, by simp [hf, he]⟩
      have hne : group_transitions graph f e ≠ [] :=
        List.ne_nil_of_mem htg
      exact List.mem_map.mpr ⟨((f, e), group_transitions graph f e),
        transition_groups_mem_of_ne hne, rfl⟩

/-- C10: a missing-negative gap always names a state with at least one
outbound transition, because the detector iterates only over the
transition-source grouping; a pure transition target never receives one. -/
theorem c10_missing_negative_has_outbound (graph : GraphModel)
    (triaged : List (String × String)) (gap : Gap)
    (hmem : gap ∈ analyze_gaps graph triaged)
    (htype : gap.gap_type = GapType.MISSING_NEGATIVE) :
    ∃ s, gap.states = [s] ∧ ∃ t ∈ graph.transitions, t.from_state = s := by
  rw [analyze_gaps_eq_filter] at hmem
  have hmem0 : gap ∈ analyze_gaps graph [] := (List.mem_filter.mp hmem).1
  have hfm := mem_analyze_iff_missing_negative.mp ⟨hmem0, htype⟩
  rw [find_missing_negatives_nil_eq] at hfm
  obtain ⟨kv, hkv, hc⟩ := List.mem_filterMap.mp hfm
  obtain ⟨_, _, hst, _⟩ := missing_negative_candidate_some hc
  obtain ⟨hev, hne⟩ := mem_state_events hkv
  refine ⟨kv.1, hst, ?_⟩
  rw [hev] at hne
  have hfne : (graph.transitions.filter
      (fun t => decide (t.from_state = kv.1))) ≠ [] := by
    intro hnil
    apply hne
    rw [eventsOf, hnil]
    rfl
  obtain ⟨t, ht⟩ := List.exists_mem_of_ne_nil _ hfne
  rw [List.mem_filter] at ht
  exact ⟨t, ht.1, of_decide_eq_true ht.2⟩

/-- Witness for C10 at the concrete `scenario_c4` graph. -/
theorem c10_missing_negative_witness :
    ∃ s, mn_gap_c4.states = [s] ∧
      ∃ t ∈ (build_graph (ParseResult.mk [scenario_c4])).transitions,
        t.from_state = s :=
  c10_missing_negative_has_outbound (build_graph (ParseResult.mk [scenario_c4]))
    [] mn_gap_c4 (by decide) (by decide)

theorem merge_one_lookup_self_some (d : List (String × State)) (state : State)
    (existing : State) (hex : dlookup d state.label = some existing) :
    dlookup (merge_one d state) state.label =
      some (State.mk state.label
        (pySortedSet (existing.source_scenarios ++ state.source_scenarios))) := by
  unfold merge_one
  rw [hex]
  exact dlookup_dictSet_self _ _ _

theorem merge_one_lookup_self_none (d : List (String × State)) (state : State)
    (hex : dlookup d state.label = none) :
    dlookup (merge_one d state) state.label = some state := by
  unfold merge_one
  rw [hex]
  exact dlookup_dictSet_self _ _ _

theorem merge_one_lookup_ne (d : List (String × State)) (state : State)
    (l : String) (h : l ≠ state.label) :
    dlookup (merge_one d state) l = dlookup d l := by
  unfold merge_one
  cases hd : dlookup d state.label <;> exact dlookup_dictSet_ne _ _ _ _ h

theorem KeyInv_merge_one {d : List (String × State)} (h : KeyInv d)
    (state : State) : KeyInv (merge_one d state) := by
  intro l st hl
  by_cases hlab : l = state.label
  · subst hlab
    cases hex : dlookup d state.label with
    | some existing =>
        rw [merge_one_lookup_self_some d state existing hex,
          Option.some.injEq] at hl
        rw [← hl]
    | none =>
        rw [merge_one_lookup_self_none d state hex, Option.some.injEq] at hl
        rw [← hl]
  · rw [merge_one_lookup_ne _ _ _ hlab] at hl
    exact h l st hl

theorem mem_src_merge_one (d : List (String × State)) (state : State)
    (l t : String) :
    (∃ st, dlookup (merge_one d state) l = some st ∧
        t ∈ st.source_scenarios) ↔
      ((∃ st, dlookup d l = some st ∧ t ∈ st.source_scenarios) ∨
        (state.label = l ∧ t ∈ state.source_scenarios)) := by
  by_cases hlab : l = state.label
  · subst hlab
    cases hex : dlookup d state.label with
    | some existing =>
        rw [merge_one_lookup_self_some d state existing hex]
        constructor
        · rintro ⟨st, hst, ht⟩
          rw [Option.some.injEq] at hst
          rw [← hst] at ht
          have hm := mem_pySortedSet.mp ht
          rcases List.mem_append.mp hm with hm | hm
          · exact Or.inl ⟨existing, rfl, hm⟩
          · exact Or.inr ⟨rfl, hm⟩
        · rintro (⟨st, hst, ht⟩ | ⟨_, ht⟩)
          · rw [Option.some.injEq] at hst
            refine ⟨_, rfl,
              mem_pySortedSet.mpr (List.mem_append.mpr (Or.inl ?_))⟩
            rw [hst]
            exact ht
          · exact ⟨_, rfl,
              mem_pySortedSet.mpr (List.mem_append.mpr (Or.inr ht))⟩
    | none =>
        rw [merge_one_lookup_self_none d state hex]
        constructor
        · rintro ⟨st, hst, ht⟩
          rw [Option.some.injEq] at hst
          rw [← hst] at ht
          exact Or.inr ⟨rfl, ht⟩
        · rintro (⟨st, hst, ht⟩ | ⟨_, ht⟩)
          · cases hst
          · exact ⟨state, rfl, ht⟩
  · rw [merge_one_lookup_ne _ _ _ hlab]
    have hne : ¬ (state.label = l ∧ t ∈ state.source_scenarios) := by
      rintro ⟨he, _⟩
      exact hlab he.symm
    simp [hne]

theorem none_merge_one (d : List (String × State)) (state : State)
    (l : String) :
    dlookup (merge_one d state) l = none ↔
      dlookup d l = none ∧ state.label ≠ l := by
  by_cases hlab : l = state.label
  · subst hlab
    cases hex : dlookup d state.label with
    | some existing =>
        rw [merge_one_lookup_self_some d state existing hex]
        simp [hex]
    | none =>
        rw [merge_one_lookup_self_none d state hex]
        simp [hex]
  · rw [merge_one_lookup_ne _ _ _ hlab]
    have hne : state.label ≠ l := fun he => hlab he.symm
    simp [hne]

theorem mergeStates_cons (d : List (String × State)) (s : State)
    (L : List State) :
    mergeStates d (s :: L) = mergeStates (merge_one d s) L := rfl

theorem KeyInv_mergeStates {d : List (String × State)} (h : KeyInv d)
    (L : List State) : KeyInv (mergeStates d L) := by
  induction L generalizing d with
  | nil => exact h
  | cons s L ih =>
      rw [mergeStates_cons]
      exact ih (KeyInv_merge_one h s)

theorem mem_src_mergeStates (d : List (String × State)) (L : List State)
    (l t : String) :
    (∃ st, dlookup (mergeStates d L) l = some st ∧ t ∈ st.source_scenarios) ↔
      ((∃ st, dlookup d l = some st ∧ t ∈ st.source_scenarios) ∨
        ∃ st ∈ L, st.label = l ∧ t ∈ st.source_scenarios) := by
  induction L generalizing d with
  | nil => simp [mergeStates]
  | cons s L ih =>
      rw [mergeStates_cons, ih, mem_src_merge_one]
      simp only [List.mem_cons]
      constructor
      · rintro ((h | h) | ⟨st, hm, hp⟩)
        · exact Or.inl h
        · exact Or.inr ⟨s, Or.inl rfl, h⟩
        · exact Or.inr ⟨st, Or.inr hm, hp⟩
      · rintro (h | ⟨st, (rfl | hm), hp⟩)
        · exact Or.inl (Or.inl h)
        · exact Or.inl (Or.inr hp)
        · exact Or.inr ⟨st, hm, hp⟩

theorem none_mergeStates (d : List (String × State)) (L : List State)
    (l : String) :
    dlookup (mergeStates d L) l = none ↔
      dlookup d l = none ∧ ∀ st ∈ L, st.label ≠ l := by
  induction L generalizing d with
  | nil => simp [mergeStates]
  | cons s L ih =>
      rw [mergeStates_cons, ih, none_merge_one]
      simp only [List.mem_cons]
      constructor
      · rintro ⟨⟨hd, hs⟩, hL⟩
        refine ⟨hd, ?_⟩
        rintro st (rfl | hm)
        · exact hs
        · exact hL st hm
      · rintro ⟨hd, hall⟩
        exact ⟨⟨hd, hall s (Or.inl rfl)⟩, fun st hm => hall st (Or.inr hm)⟩

theorem extract_states_eq (sc : Scenario) :
    (extract_states_and_transitions sc).1 =
      (sc.givens.map (·.text)).map (fun label => State.mk label [sc.title]) ++
        (sc.thens.map (·.text)).map (fun label => State.mk label [sc.title]) := rfl

theorem extract_transitions_eq (sc : Scenario) :
    (extract_states_and_transitions sc).2 =
      sc.whens.flatMap (fun w => (sc.givens.map (·.text)).flatMap (fun g =>
        (sc.thens.map (·.text)).map
          (fun th => Transition.mk w.text g th (some sc.title)))) := rfl

theorem extract_states_mem (sc : Scenario) (l t : String) :
    (∃ st ∈ (extract_states_and_transitions sc).1,
        st.label = l ∧ t ∈ st.source_scenarios) ↔
      (sc.title = t ∧
        (l ∈ sc.givens.map (·.text) ∨ l ∈ sc.thens.map (·.text))) := by
  rw [extract_states_eq]
  constructor
  · rintro ⟨st, hmem, hl, ht⟩
    rcases List.mem_append.mp hmem with hm | hm
    · obtain ⟨lab, hlab, rfl⟩ := List.mem_map.mp hm
      have htt : t = sc.title := List.mem_singleton.mp ht
      refine ⟨htt.symm, Or.inl ?_⟩
      rw [← hl]
      exact hlab
    · obtain ⟨lab, hlab, rfl⟩ := List.mem_map.mp hm
      have htt : t = sc.title := List.mem_singleton.mp ht
      refine ⟨htt.symm, Or.inr ?_⟩
      rw [← hl]
      exact hlab
  · rintro ⟨rfl, (hm | hm)⟩
    · exact ⟨State.mk l [sc.title],
        List.mem_append.mpr (Or.inl (List.mem_map.mpr ⟨l, hm, rfl⟩)),
        rfl, List.mem_singleton.mpr rfl⟩
    · exact ⟨State.mk l [sc.title],
        List.mem_append.mpr (Or.inr (List.mem_map.mpr ⟨l, hm, rfl⟩)),
        rfl, List.mem_singleton.mpr rfl⟩

theorem extract_states_label_ne (sc : Scenario) (l : String) :
    (∀ st ∈ (extract_states_and_transitions sc).1, st.label ≠ l) ↔
      (l ∉ sc.givens.map (·.text) ∧ l ∉ sc.thens.map (·.text)) := by
  rw [extract_states_eq]
  constructor
  · intro h
    constructor
    · intro hm
      exact h (State.mk l [sc.title])
        (List.mem_append.mpr (Or.inl (List.mem_map.mpr ⟨l, hm, rfl⟩))) rfl
    · intro hm
      exact h (State.mk l [sc.title])
        (List.mem_append.mpr (Or.inr (List.mem_map.mpr ⟨l, hm, rfl⟩))) rfl
  · rintro ⟨hg, ht⟩ st hmem he
    rcases List.mem_append.mp hmem with hm | hm
    · obtain ⟨lab, hlab, rfl⟩ := List.mem_map.mp hm
      exact hg (he ▸ hlab)
    · obtain ⟨lab, hlab, rfl⟩ := List.mem_map.mp hm
      exact ht (he ▸ hlab)

theorem build_fold_fst (scs : List Scenario) (d : List (String × State))
    (ts : List Transition) :
    (scs.foldl (fun acc scenario =>
        (mergeStates acc.1 (extract_states_and_transitions scenario).1,
         acc.2 ++ (extract_states_and_transitions scenario).2)) (d, ts)).1 =
      scs.foldl
        (fun d sc => mergeStates d (extract_states_and_transitions sc).1) d := by
  induction scs generalizing d ts with
  | nil => rfl
  | cons sc scs ih => exact ih _ _

theorem build_fold_snd (scs : List Scenario) (d : List (String × State))
    (ts : List Transition) :
    (scs.foldl (fun acc scenario =>
        (mergeStates acc.1 (extract_states_and_transitions scenario).1,
         acc.2 ++ (extract_states_and_transitions scenario).2)) (d, ts)).2 =
      ts ++ scs.flatMap (fun sc => (extract_states_and_transitions sc).2) := by
  induction scs generalizing d ts with
  | nil => simp
  | cons sc scs ih =>
      rw [List.foldl_cons, ih, List.flatMap_cons, List.append_assoc]

theorem build_graph_states_eq (pr : ParseResult) :
    (build_graph pr).states =
      pr.scenarios.foldl
        (fun d sc => mergeStates d (extract_states_and_transitions sc).1) [] := by
  simp only [build_graph]
  exact build_fold_fst pr.scenarios [] []

theorem build_graph_transitions_eq (pr : ParseResult) :
    (build_graph pr).transitions =
      pr.scenarios.flatMap (fun sc => (extract_states_and_transitions sc).2) := by
  simp only [build_graph]
  exact (build_fold_snd pr.scenarios [] []).trans (List.nil_append _)

theorem KeyInv_buildStates (scs : List Scenario) {d : List (String × State)}
    (h : KeyInv d) :
    KeyInv (scs.foldl
      (fun d sc => mergeStates d (extract_states_and_transitions sc).1) d) := by
  induction scs generalizing d with
  | nil => exact h
  | cons sc scs ih =>
      rw [List.foldl_cons]
      exact ih (KeyInv_mergeStates h _)

theorem mem_src_buildStates (scs : List Scenario) (d : List (String × State))
    (l t : String) :
    (∃ st, dlookup (scs.foldl
        (fun d sc => mergeStates d (extract_states_and_transitions sc).1) d) l =
          some st ∧ t ∈ st.source_scenarios) ↔
      ((∃ st, dlookup d l = some st ∧ t ∈ st.source_scenarios) ∨
        ∃ sc ∈ scs, sc.title = t ∧
          (l ∈ sc.givens.map (·.text) ∨ l ∈ sc.thens.map (·.text))) := by
  induction scs generalizing d with
  | nil => simp
  | cons sc scs ih =>
      rw [List.foldl_cons, ih, mem_src_mergeStates, extract_states_mem]
      constructor
      · rintro ((h | h) | ⟨sc', hm, hp⟩)
        · exact Or.inl h
        · exact Or.inr ⟨sc, List.mem_cons_self _ _, h⟩
        · exact Or.inr ⟨sc', List.mem_cons_of_mem _ hm, hp⟩
      · rintro (h | ⟨sc', hm, hp⟩)
        · exact Or.inl (Or.inl h)
        · rcases List.mem_cons.mp hm with rfl | hm'
          · exact Or.inl (Or.inr hp)
          · exact Or.inr ⟨sc', hm', hp⟩

theorem none_buildStates (scs : List Scenario) (d : List (String × State))
    (l : String) :
    (dlookup (scs.foldl
        (fun d sc => mergeStates d (extract_states_and_transitions sc).1) d) l =
      none) ↔
      (dlookup d l = none ∧ ∀ sc ∈ scs,
        l ∉ sc.givens.map (·.text) ∧ l ∉ sc.thens.map (·.text)) := by
  induction scs generalizing d with
  | nil => simp
  | cons sc scs ih =>
      rw [List.foldl_cons, ih, none_mergeStates, extract_states_label_ne]
      constructor
      · rintro ⟨⟨hd, hsc⟩, hall⟩
        refine ⟨hd, ?_⟩
        rintro sc' hm
        rcases List.mem_cons.mp hm with rfl | hm'
        · exact hsc
        · exact hall sc' hm'
      · rintro ⟨hd, hall⟩
        exact ⟨⟨hd, hall sc (List.mem_cons_self _ _)⟩,
          fun sc' hm => hall sc' (List.mem_cons_of_mem _ hm)⟩

theorem length_flatMap_const {α β : Type} (l : List α) (f : α → List β)
    (n : Nat) (h : ∀ a ∈ l, (f a).length = n) :
    (l.flatMap f).length = l.length * n := by
  induction l with
  | nil => simp
  | cons a l ih =>
      rw [List.flatMap_cons, List.length_append, h a (List.mem_cons_self _ _),
        ih (fun a ha => h a (List.mem_cons_of_mem _ ha)), List.length_cons]
      ring

/-- C3: `extract_states_and_transitions` emits exactly
whens × givens × thens transitions — one per (when, given, then) triple,
carrying the when text as event, the given label as from-state, the then
label as to-state and the scenario title — and `build_graph` merges states
with identical labels across scenarios, unioning their source-scenario
sets. -/
theorem c3_cartesian_transitions_and_state_merge (scenario : Scenario)
    (pr : ParseResult) (label : String) :
    ((extract_states_and_transitions scenario).2.length =
        scenario.whens.length * scenario.givens.length *
          scenario.thens.length) ∧
    (∀ tr, tr ∈ (extract_states_and_transitions scenario).2 ↔
      ∃ w ∈ scenario.whens, ∃ g ∈ scenario.givens, ∃ th ∈ scenario.thens,
        tr = Transition.mk w.text g.text th.text (some scenario.title)) ∧
    (∀ st, dlookup (build_graph pr).states label = some st →
      st.label = label ∧
        ∀ title, title ∈ st.source_scenarios ↔
          ∃ sc ∈ pr.scenarios, sc.title = title ∧
            (label ∈ sc.givens.map (·.text) ∨
              label ∈ sc.thens.map (·.text))) ∧
    (dlookup (build_graph pr).states label = none ↔
      ∀ sc ∈ pr.scenarios,
        label ∉ sc.givens.map (·.text) ∧ label ∉ sc.thens.map (·.text)) := by
  refine ⟨?_, ?_, ?_, ?_⟩
  · rw [extract_transitions_eq]
    rw [length_flatMap_const _ _
      (scenario.givens.length * scenario.thens.length) ?_, Nat.mul_assoc]
    intro w _
    rw [length_flatMap_const _ _ scenario.thens.length ?_, List.length_map]
    intro g _
    rw [List.length_map, List.length_map]
  · intro tr
    rw [extract_transitions_eq]
    simp only [List.mem_flatMap, List.mem_map]
    constructor
    · rintro ⟨w, hw, gl, ⟨g, hg, rfl⟩, thl, ⟨th, hth, rfl⟩, htr⟩
      exact ⟨w, hw, g, hg, th, hth, htr.symm⟩
    · rintro ⟨w, hw, g, hg, th, hth, rfl⟩
      exact ⟨w, hw, g.text, ⟨g, hg, rfl⟩, th.text, ⟨th, hth, rfl⟩, rfl⟩
  · intro st hst
    have hbase : KeyInv ([] : List (String × State)) := by
      intro l st' h
      simp [dlookup] at h
    have hki : KeyInv (build_graph pr).states := by
      rw [build_graph_states_eq]
      exact KeyInv_buildStates pr.scenarios hbase
    refine ⟨hki label st hst, ?_⟩
    intro title
    have hmem := mem_src_buildStates pr.scenarios [] label title
    rw [← build_graph_states_eq] at hmem
    constructor
    · intro hin
      rcases hmem.mp ⟨st, hst, hin⟩ with ⟨st', h', _⟩ | hq
      · simp [dlookup] at h'
      · exact hq
    · intro hq
      obtain ⟨st', h', ht'⟩ := hmem.mpr (Or.inr hq)
      rw [hst, Option.some.injEq] at h'
      rw [← h'] at ht'
      exact ht'
  · have hn := none_buildStates pr.scenarios [] label
    rw [← build_graph_states_eq] at hn
    rw [hn]
    simp [dlookup]

/-- Claim C1 (counterexample): under the legal vocabulary `c1_vocab`,
the text `GIVEN bar.` parses to `c1_ir0` (symbol `a2`), but reparsing
its canonical GWT rendering yields `c1_ir1` (symbol `a1`, whose patterns
are probed first and whose canonical rendering `a2` shares), so
`parse_gwt (render_gwt (parse_gwt T)) ≠ parse_gwt T` — also as
`to_dict` dictionaries under Python `==`.  The round-trip-stability half
of the claim therefore fails; only the gate half survives (see
`c1_compile_roundtrip_gate`). -/
theorem c1_roundtrip_refuted :
    parse_gwt "t.txt" "GIVEN bar." c1_vocab = .ok c1_ir0 ∧
    ((parse_gwt "t.txt" "GIVEN bar." c1_vocab).bind fun ir =>
      (render_gwt ir c1_vocab).bind fun txt =>
        parse_gwt "t.txt" txt c1_vocab) = .ok c1_ir1 ∧
    c1_ir1 ≠ c1_ir0 ∧
    FeatureIR.to_dict c1_ir1 ≠ FeatureIR.to_dict c1_ir0 ∧
    pyJsonEq (FeatureIR.to_dict c1_ir1) (FeatureIR.to_dict c1_ir0) = false := by
  refine ⟨by decide, by decide, by decide, by decide, by decide⟩

/-- Claim C1 (amended): the round-trip equality does not hold for every
accepted input (see `c1_roundtrip_refuted`), but the compile gate does
enforce it: whenever `compile_spec` succeeds on a `.txt` input, the
input parsed, rendered canonically, and the canonical text reparsed to
an IR whose `to_dict` dictionary is Python-`==` to the original's, so
`compile_spec` never returns successfully with a round-trip mismatch. -/
theorem c1_compile_roundtrip_gate (input_path text : String) (vocab : Vocab)
    (outputs : CompileOutputs)
    (h : compile_spec_txt input_path text vocab = .ok outputs) :
    ∃ ir canonical_gwt canonical_ir,
      parse_gwt input_path text vocab = .ok ir ∧
      render_gwt ir vocab = .ok canonical_gwt ∧
      parse_gwt ("specs/" ++ pathStem input_path ++ ".txt.canonical")
        canonical_gwt vocab = .ok canonical_ir ∧
      pyJsonEq (FeatureIR.to_dict canonical_ir) (FeatureIR.to_dict ir) = true := by
  simp only [compile_spec_txt] at h
  obtain ⟨ir, hir, h⟩ := except_bind_ok_inv h
  obtain ⟨dal, hdal, h⟩ := except_bind_ok_inv h
  obtain ⟨cgwt, hcgwt, h⟩ := except_bind_ok_inv h
  obtain ⟨irj, hirj, h⟩ := except_bind_ok_inv h
  obtain ⟨cir, hcir, h⟩ := except_bind_ok_inv h
  refine ⟨ir, cgwt, cir, hir, hcgwt, hcir, ?_⟩
  by_cases hc : pyJsonEq (FeatureIR.to_dict cir) (FeatureIR.to_dict ir) = true
  · exact hc
  · rw [if_neg hc] at h
    exact Except.noConfusion h

set_option maxRecDepth 40000 in
/-- Witness for `c1_compile_roundtrip_gate`: the compile gate passes on
`demo.txt` containing `GIVEN foo.` under `c1_demo_vocab`, and the
conclusion holds there. -/
theorem c1_compile_roundtrip_gate_witness :
    ∃ ir canonical_gwt canonical_ir,
      parse_gwt "demo.txt" "GIVEN foo." c1_demo_vocab = .ok ir ∧
      render_gwt ir c1_demo_vocab = .ok canonical_gwt ∧
      parse_gwt ("specs/" ++ pathStem "demo.txt" ++ ".txt.canonical")
        canonical_gwt c1_demo_vocab = .ok canonical_ir ∧
      pyJsonEq (FeatureIR.to_dict canonical_ir) (FeatureIR.to_dict ir) = true := by
  apply c1_compile_roundtrip_gate "demo.txt" "GIVEN foo." c1_demo_vocab c1_demo_outputs
  have h1 : parse_gwt "demo.txt" "GIVEN foo." c1_demo_vocab = .ok c1_demo_ir := by decide
  have h2 : render_dal c1_demo_ir c1_demo_vocab = .ok c1_demo_dal := by decide
  have h3 : render_gwt c1_demo_ir c1_demo_vocab = .ok c1_demo_canonical := by decide
  have h4 : serialize_ir_json c1_demo_ir = .ok c1_demo_json := by decide
  have h5 : parse_gwt "specs/demo.txt.canonical" c1_demo_canonical c1_demo_vocab
      = .ok c1_demo_ir := by decide
  have h6 : pyJsonEq (FeatureIR.to_dict c1_demo_ir) (FeatureIR.to_dict c1_demo_ir)
      = true := by decide
  have hstem : pathStem "demo.txt" = "demo" := by decide
  have hcat : "specs/" ++ "demo" ++ ".txt.canonical" = "specs/demo.txt.canonical" := rfl
  have hdal : "specs/" ++ "demo" ++ ".dal" = "specs/demo.dal" := rfl
  have hirp : "acceptance-pipeline/ir/" ++ "demo" ++ ".json"
      = "acceptance-pipeline/ir/demo.json" := rfl
  have hdiff : "acceptance-pipeline/roundtrip/" ++ "demo" ++ ".diff.txt"
      = "acceptance-pipeline/roundtrip/demo.diff.txt" := rfl
  show compile_spec_txt "demo.txt" "GIVEN foo." c1_demo_vocab = .ok c1_demo_outputs
  simp only [compile_spec_txt, hstem, hcat, hdal, hirp, hdiff, h1, except_ok_bind,
    h2, h3, h4, h5, h6, if_true, c1_demo_outputs]
  rfl

theorem except_pure_bind {ε α β : Type} (a : α) (f : α → Except ε β) :
    ((pure a : Except ε α) >>= f) = f a := rfl

theorem except_pure_eq_ok {ε α : Type} (a : α) :
    (pure a : Except ε α) = .ok a := rfl

theorem except_error_bind {ε α β : Type} (e : ε) (f : α → Except ε β) :
    ((Except.error e : Except ε α) >>= f) = Except.error e := rfl

theorem except_bind_error_inv {ε α β : Type} {x : Except ε α} {f : α → Except ε β}
    {e : ε} (h : (x >>= f) = .error e) :
    x = .error e ∨ ∃ a, x = .ok a ∧ f a = .error e := by
  cases x with
  | ok a => exact .inr ⟨a, rfl, h⟩
  | error e' =>
      rw [except_error_bind] at h
      have he : e' = e := Except.error.inj h
      exact .inl (by rw [he])

theorem exceptMapM_ok_of_forall {ε α β : Type} {f : α → Except ε β} {l : List α}
    (h : ∀ a ∈ l, ∃ b, f a = .ok b) : ∃ bs, exceptMapM f l = .ok bs := by
  induction l with
  | nil => exact ⟨[], rfl⟩
  | cons a t ih =>
      obtain ⟨b, hb⟩ := h a (by simp)
      obtain ⟨bs, hbs⟩ := ih (fun x hx => h x (by simp [hx]))
      exact ⟨b :: bs, by simp [exceptMapM, hb, hbs]⟩

theorem exceptMapM_error_inv {ε α β : Type} {f : α → Except ε β} {l : List α}
    {e : ε} (h : exceptMapM f l = .error e) : ∃ a ∈ l, f a = .error e := by
  induction l with
  | nil => exact absurd h (by simp [exceptMapM])
  | cons a t ih =>
      cases hfa : f a with
      | error e' =>
          have he : e' = e := by
            have := h
            simp only [exceptMapM, hfa] at this
            exact (Except.error.inj this)
          exact ⟨a, by simp, by rw [hfa, he]⟩
      | ok b =>
          cases hmt : exceptMapM f t with
          | ok bs =>
              have := h
              simp only [exceptMapM, hfa, hmt] at this
              exact Except.noConfusion this
          | error e' =>
              have he : e' = e := by
                have := h
                simp only [exceptMapM, hfa, hmt] at this
                exact (Except.error.inj this)
              obtain ⟨x, hx, hfx⟩ := ih (by rw [hmt, he])
              exact ⟨x, by simp [hx], hfx⟩

theorem render_value_error {v : PyValue} {e : PyErr}
    (h : render_value v = .error e) :
    ∃ t r, v = .other t r ∧
      e = .dualSpecError ("Unsupported DAL arg value type: " ++ t) := by
  cases v with
  | bool b => exact Except.noConfusion h
  | int n => exact Except.noConfusion h
  | str s => exact Except.noConfusion h
  | other t r =>
      refine ⟨t, r, rfl, ?_⟩
      simpa [render_value] using (Except.error.inj h).symm

theorem render_value_ok {v : PyValue} (h : ∀ t r, v ≠ .other t r) :
    ∃ s, render_value v = .ok s := by
  cases v with
  | bool b => exact ⟨_, rfl⟩
  | int n => exact ⟨_, rfl⟩
  | str s => exact ⟨_, rfl⟩
  | other t r => exact absurd rfl (h t r)

theorem mem_ordered_args {entry : VocabEntry} {args : PyDict}
    {kv : String × PyValue} (h : kv ∈ ordered_args entry args) : kv ∈ args := by
  unfold ordered_args at h
  rcases List.mem_append.mp h with h1 | h2
  · rcases List.mem_filterMap.mp h1 with ⟨spec, _, hspec⟩
    cases hd : dlookup args spec.name with
    | none => rw [hd] at hspec; exact Option.noConfusion hspec
    | some v =>
        rw [hd] at hspec
        have : (spec.name, v) = kv := Option.some.inj hspec
        subst this
        exact mem_of_dlookup hd
  · rcases List.mem_filterMap.mp h2 with ⟨key, _, hkey⟩
    by_cases hs : (entry.args.filterMap (fun spec =>
        match dlookup args spec.name with
        | some v => some (spec.name, v)
        | none => none)).map Prod.fst |>.contains key
    · rw [if_pos hs] at hkey; exact Option.noConfusion hkey
    · rw [if_neg hs] at hkey
      cases hd : dlookup args key with
      | none => rw [hd] at hkey; exact Option.noConfusion hkey
      | some v =>
          rw [hd] at hkey
          have : (key, v) = kv := Option.some.inj hkey
          subst this
          exact mem_of_dlookup hd

theorem render_dal_step_error {step : StepIR} {vocab : Vocab} {e : PyErr}
    (hentry : (entries_by_symbol_kind vocab step.kind step.symbol).isSome = true)
    (hkind : (dlookup dal_prefixes step.kind).isSome = true)
    (h : render_dal_step step vocab = .error e) :
    ∃ t, e = .dualSpecError ("Unsupported DAL arg value type: " ++ t) := by
  obtain ⟨entry, hent⟩ := Option.isSome_iff_exists.mp hentry
  obtain ⟨pfx, hpfx⟩ := Option.isSome_iff_exists.mp hkind
  simp only [render_dal_step, hent, hpfx, except_pure_bind] at h
  rcases except_bind_error_inv h with hmap | ⟨parts, hparts, h2⟩
  · obtain ⟨kv, hmem, hkv⟩ := exceptMapM_error_inv hmap
    rcases except_bind_error_inv hkv with hrv | ⟨rv, _, habs⟩
    · obtain ⟨t, r, _, he⟩ := render_value_error hrv
      exact ⟨t, he⟩
    · exact Except.noConfusion habs
  · exact Except.noConfusion h2

theorem render_dal_step_ok {step : StepIR} {vocab : Vocab}
    (hentry : (entries_by_symbol_kind vocab step.kind step.symbol).isSome = true)
    (hkind : (dlookup dal_prefixes step.kind).isSome = true)
    (hbase : ∀ kv ∈ step.args, ∀ t r, kv.2 ≠ PyValue.other t r) :
    ∃ s, render_dal_step step vocab = .ok s := by
  obtain ⟨entry, hent⟩ := Option.isSome_iff_exists.mp hentry
  obtain ⟨pfx, hpfx⟩ := Option.isSome_iff_exists.mp hkind
  have hall : ∀ kv ∈ ordered_args entry step.args,
      ∃ out, (do
        let rv ← render_value kv.2
        pure (kv.1 ++ "=" ++ rv) : Except PyErr String) = .ok out := by
    intro kv hkv
    obtain ⟨s, hs⟩ := render_value_ok (hbase kv (mem_ordered_args hkv))
    exact ⟨kv.1 ++ "=" ++ s, by simp [hs]⟩
  obtain ⟨parts, hparts⟩ := exceptMapM_ok_of_forall hall
  refine ⟨pfx ++ " " ++ step.symbol ++ "(" ++ String.intercalate ", " parts ++ ").", ?_⟩
  simp only [render_dal_step, hent, hpfx, except_pure_bind, hparts, except_ok_bind]
  rfl

theorem render_gwt_step_ok {step : StepIR} {vocab : Vocab}
    (hentry : (entries_by_symbol_kind vocab step.kind step.symbol).isSome = true) :
    ∃ s, render_gwt_step step vocab = .ok s := by
  obtain ⟨entry, hent⟩ := Option.isSome_iff_exists.mp hentry
  simp only [render_gwt_step, hent, except_pure_bind]
  cases hr : render_via_reason entry step.args with
  | some rendered => exact ⟨rendered, by simp [hr, except_pure_eq_ok]⟩
  | none =>
      cases hf : format_template (pick_gwt_template entry step.args)
          ((template_placeholders (pick_gwt_template entry step.args)).foldl (fun d ph =>
            if dmem d ph then d
            else
              match dlookup d (ph ++ "_contains") with
              | some v => dictSet d ph v
              | none => d) step.args) with
      | some s => exact ⟨s, by simp [hr, hf, except_pure_eq_ok]⟩
      | none =>
          exact ⟨template_text (pick_gwt_template entry step.args),
            by simp [hr, hf, except_pure_eq_ok]⟩

theorem except_bind_ok_of_ok {ε α β : Type} {m : Except ε α} {k : α → Except ε β}
    (hm : ∃ v, m = .ok v) (hk : ∀ v, ∃ w, k v = .ok w) :
    ∃ w, (m >>= k) = .ok w := by
  obtain ⟨v, hv⟩ := hm
  obtain ⟨w, hw⟩ := hk v
  refine ⟨w, ?_⟩
  rw [hv, except_ok_bind, hw]

theorem render_gwt_ok {ir : FeatureIR} {vocab : Vocab}
    (hres : ∀ sc ∈ ir.scenarios, ∀ step ∈ sc.givens ++ sc.whens ++ sc.thens,
      (entries_by_symbol_kind vocab step.kind step.symbol).isSome = true) :
    ∃ s, render_gwt ir vocab = .ok s := by
  simp only [render_gwt]
  apply except_bind_ok_of_ok
  · apply exceptMapM_ok_of_forall
    intro sc hsc
    apply except_bind_ok_of_ok
    · apply exceptMapM_ok_of_forall
      intro step hstep
      exact render_gwt_step_ok (hres sc hsc step (by simp [hstep]))
    · intro gs
      apply except_bind_ok_of_ok
      · apply exceptMapM_ok_of_forall
        intro step hstep
        exact render_gwt_step_ok (hres sc hsc step (by simp [hstep]))
      · intro ws
        apply except_bind_ok_of_ok
        · apply exceptMapM_ok_of_forall
          intro step hstep
          exact render_gwt_step_ok (hres sc hsc step (by simp [hstep]))
        · intro ths
          exact ⟨_, rfl⟩
  · intro blocks
    exact ⟨_, rfl⟩

theorem render_dal_error_shape {ir : FeatureIR} {vocab : Vocab} {e : PyErr}
    (hres : ∀ sc ∈ ir.scenarios, ∀ step ∈ sc.givens ++ sc.whens ++ sc.thens,
      (entries_by_symbol_kind vocab step.kind step.symbol).isSome = true ∧
      (dlookup dal_prefixes step.kind).isSome = true)
    (h : render_dal ir vocab = .error e) :
    ∃ t, e = .dualSpecError ("Unsupported DAL arg value type: " ++ t) := by
  simp only [render_dal] at h
  rcases except_bind_error_inv h with hmap | ⟨lines, _, h2⟩
  · obtain ⟨sc, hsc, hF⟩ := exceptMapM_error_inv hmap
    rcases except_bind_error_inv hF with hsteps | ⟨stepLines, _, h3⟩
    · obtain ⟨step, hstep, hstepe⟩ := exceptMapM_error_inv hsteps
      exact render_dal_step_error (hres sc hsc step hstep).1 (hres sc hsc step hstep).2
        hstepe
    · exact Except.noConfusion h3
  · exact Except.noConfusion h2

theorem render_dal_ok {ir : FeatureIR} {vocab : Vocab}
    (hres : ∀ sc ∈ ir.scenarios, ∀ step ∈ sc.givens ++ sc.whens ++ sc.thens,
      (entries_by_symbol_kind vocab step.kind step.symbol).isSome = true ∧
      (dlookup dal_prefixes step.kind).isSome = true)
    (hbase : ∀ sc ∈ ir.scenarios, ∀ step ∈ sc.givens ++ sc.whens ++ sc.thens,
      ∀ kv ∈ step.args, ∀ t r, kv.2 ≠ PyValue.other t r) :
    ∃ s, render_dal ir vocab = .ok s := by
  simp only [render_dal]
  apply except_bind_ok_of_ok
  · apply exceptMapM_ok_of_forall
    intro sc hsc
    apply except_bind_ok_of_ok
    · apply exceptMapM_ok_of_forall
      intro step hstep
      exact render_dal_step_ok (hres sc hsc step hstep).1 (hres sc hsc step hstep).2
        (hbase sc hsc step hstep)
    · intro stepLines
      exact ⟨_, rfl⟩
  · intro scenarioLines
    exact ⟨_, rfl⟩

/-- Claim C8 (counterexample): `render_dal` and `render_gwt` have a
failure mode besides the unsupported-value-type invariant violation —
a step whose `(kind, symbol)` is absent from the vocabulary raises
`KeyError` in both renderers (`entries_by_symbol_kind[...]`), here on an
IR whose argument values are all supported. -/
theorem c8_failure_mode_refuted :
    render_dal c8_bad_ir c8_empty_vocab = .error (.keyError "('fact', 'nosuch')") ∧
    render_gwt c8_bad_ir c8_empty_vocab = .error (.keyError "('fact', 'nosuch')") ∧
    (c8_bad_ir.scenarios.all (fun sc =>
      (sc.givens ++ sc.whens ++ sc.thens).all (fun step =>
        step.args.all (fun kv =>
          match kv.2 with
          | .other _ _ => false
          | _ => true)))) = true := by
  refine ⟨by decide, by decide, by decide⟩

/-- Claim C8 (amended): when every step's `(kind, symbol)` resolves in
the vocabulary and its kind is a step kind, `render_gwt` always returns
text; `render_dal` can fail only with the internal invariant violation
`DualSpecError "Unsupported DAL arg value type: ..."`, and returns text
whenever every argument value is a boolean, integer or string.  Without
the resolvability premise both renderers raise `KeyError`
(`c8_failure_mode_refuted`). -/
theorem c8_render_failure_modes (ir : FeatureIR) (vocab : Vocab)
    (hres : ∀ sc ∈ ir.scenarios, ∀ step ∈ sc.givens ++ sc.whens ++ sc.thens,
      (entries_by_symbol_kind vocab step.kind step.symbol).isSome = true ∧
      (dlookup dal_prefixes step.kind).isSome = true) :
    (∃ s, render_gwt ir vocab = .ok s) ∧
    (∀ e, render_dal ir vocab = .error e →
      ∃ t, e = .dualSpecError ("Unsupported DAL arg value type: " ++ t)) ∧
    ((∀ sc ∈ ir.scenarios, ∀ step ∈ sc.givens ++ sc.whens ++ sc.thens,
        ∀ kv ∈ step.args, ∀ t r, kv.2 ≠ PyValue.other t r) →
      ∃ s, render_dal ir vocab = .ok s) := by
  refine ⟨render_gwt_ok (fun sc hsc step hstep => (hres sc hsc step hstep).1),
    fun e he => render_dal_error_shape hres he,
    fun hbase => render_dal_ok hres hbase⟩

/-- Witness for `c8_render_failure_modes` on a concrete resolvable IR
and vocabulary. -/
theorem c8_render_failure_modes_witness :
    (∃ s, render_gwt c8_demo_ir c8_demo_vocab = .ok s) ∧
    (∀ e, render_dal c8_demo_ir c8_demo_vocab = .error e →
      ∃ t, e = .dualSpecError ("Unsupported DAL arg value type: " ++ t)) ∧
    ((∀ sc ∈ c8_demo_ir.scenarios, ∀ step ∈ sc.givens ++ sc.whens ++ sc.thens,
        ∀ kv ∈ step.args, ∀ t r, kv.2 ≠ PyValue.other t r) →
      ∃ s, render_dal c8_demo_ir c8_demo_vocab = .ok s) :=
  c8_render_failure_modes c8_demo_ir c8_demo_vocab (by decide)

theorem charListLe_total : ∀ a b : List Char,
    charListLe a b = true ∨ charListLe b a = true
  | [], _ => .inl rfl
  | _ :: _, [] => .inr rfl
  | x :: xs, y :: ys => by
      by_cases h1 : x.toNat < y.toNat
      · left; simp [charListLe, h1]
      · by_cases h2 : y.toNat < x.toNat
        · right; simp [charListLe, h2]
        · rcases charListLe_total xs ys with h | h
          · left; simp [charListLe, h1, h2, h]
          · right; simp [charListLe, h1, h2, h]

theorem charListLe_trans : ∀ a b c : List Char, charListLe a b = true →
    charListLe b c = true → charListLe a c = true
  | [], _, _, _, _ => rfl
  | _ :: _, [], _, hab, _ => by simp [charListLe] at hab
  | _ :: _, _ :: _, [], _, hbc => by simp [charListLe] at hbc
  | x :: xs, y :: ys, z :: zs, hab, hbc => by
      simp only [charListLe] at hab hbc ⊢
      by_cases h1 : x.toNat < y.toNat <;> by_cases h2 : y.toNat < z.toNat
      · have h3 : x.toNat < z.toNat := Nat.lt_trans h1 h2
        simp [h3]
      · by_cases h3 : z.toNat < y.toNat
        · simp [h2, h3] at hbc
        · have hyz : y.toNat = z.toNat :=
            Nat.le_antisymm (Nat.le_of_not_lt h3) (Nat.le_of_not_lt h2)
          have h4 : x.toNat < z.toNat := by rw [← hyz]; exact h1
          simp [h4]
      · by_cases h3 : y.toNat < x.toNat
        · simp [h1, h3] at hab
        · have hxy : x.toNat = y.toNat :=
            Nat.le_antisymm (Nat.le_of_not_lt h3) (Nat.le_of_not_lt h1)
          have h4 : x.toNat < z.toNat := by rw [hxy]; exact h2
          simp [h4]
      · by_cases h3 : y.toNat < x.toNat
        · simp [h1, h3] at hab
        · by_cases h4 : z.toNat < y.toNat
          · simp [h2, h4] at hbc
          · have hab' : charListLe xs ys = true := by simpa [h1, h3] using hab
            have hbc' : charListLe ys zs = true := by simpa [h2, h4] using hbc
            have hxy : x.toNat = y.toNat :=
              Nat.le_antisymm (Nat.le_of_not_lt h3) (Nat.le_of_not_lt h1)
            have hyz : y.toNat = z.toNat :=
              Nat.le_antisymm (Nat.le_of_not_lt h4) (Nat.le_of_not_lt h2)
            have h5 : ¬ x.toNat < z.toNat := by rw [hxy, hyz]; exact Nat.lt_irrefl _
            have h6 : ¬ z.toNat < x.toNat := by rw [hxy, hyz]; exact Nat.lt_irrefl _
            simp [h5, h6, charListLe_trans xs ys zs hab' hbc']

theorem charListLe_antisymm : ∀ a b : List Char, charListLe a b = true →
    charListLe b a = true → a = b
  | [], [], _, _ => rfl
  | [], _ :: _, _, hba => by simp [charListLe] at hba
  | _ :: _, [], hab, _ => by simp [charListLe] at hab
  | x :: xs, y :: ys, hab, hba => by
      simp only [charListLe] at hab hba
      by_cases h1 : x.toNat < y.toNat
      · have h2 : ¬ y.toNat < x.toNat := Nat.lt_asymm h1
        simp [h1, h2] at hba
      · by_cases h2 : y.toNat < x.toNat
        · simp [h1, h2] at hab
        · have hab' : charListLe xs ys = true := by simpa [h1, h2] using hab
          have hba' : charListLe ys xs = true := by simpa [h1, h2] using hba
          have hxy : x.toNat = y.toNat :=
            Nat.le_antisymm (Nat.le_of_not_lt h2) (Nat.le_of_not_lt h1)
          have hx : x = y := Char.eq_of_val_eq (UInt32.toNat.inj (by
            simpa [Char.toNat] using hxy))
          rw [hx, charListLe_antisymm xs ys hab' hba']

theorem pyStrLe_antisymm {a b : String} (h1 : pyStrLe a b = true)
    (h2 : pyStrLe b a = true) : a = b := by
  have hd : a.data = b.data := charListLe_antisymm a.data b.data h1 h2
  cases a with
  | mk da =>
      cases b with
      | mk db =>
          rw [show da = db from hd]

theorem pairwise_insertOrd {α : Type} {le : α → α → Bool}
    (htot : ∀ x y, le x y = true ∨ le y x = true)
    (htrans : ∀ x y z, le x y = true → le y z = true → le x z = true)
    (a : α) {l : List α} (h : List.Pairwise (fun x y => le x y = true) l) :
    List.Pairwise (fun x y => le x y = true) (insertOrd le a l) := by
  induction l with
  | nil => simp [insertOrd]
  | cons b bs ih =>
      cases h with
      | cons hb hbs =>
          by_cases hab : le a b = true
          · rw [insertOrd, if_pos hab]
            constructor
            · intro x hx
              rcases List.mem_cons.mp hx with rfl | hx'
              · exact hab
              · exact htrans a b x hab (hb x hx')
            · exact List.Pairwise.cons hb hbs
          · rw [insertOrd, if_neg hab]
            constructor
            · intro x hx
              have hmem := (perm_insertOrd le a bs).mem_iff.mp hx
              rcases List.mem_cons.mp hmem with hxa | hx'
              · rw [hxa]
                rcases htot a b with hh | hh
                · exact absurd hh hab
                · exact hh
              · exact hb x hx'
            · exact ih hbs

theorem pairwise_sortOrd {α : Type} {le : α → α → Bool}
    (htot : ∀ x y, le x y = true ∨ le y x = true)
    (htrans : ∀ x y z, le x y = true → le y z = true → le x z = true)
    (l : List α) :
    List.Pairwise (fun x y => le x y = true) (sortOrd le l) := by
  induction l with
  | nil => exact List.Pairwise.nil
  | cons x xs ih =>
      have hx : sortOrd le (x :: xs) = insertOrd le x (sortOrd le xs) := rfl
      rw [hx]
      exact pairwise_insertOrd htot htrans x ih

theorem sortOrd_keyLe_eq {α : Type} {d1 d2 : List (String × α)}
    (h12 : ∀ kv ∈ d1, kv ∈ d2) (h21 : ∀ kv ∈ d2, kv ∈ d1)
    (hn1 : (d1.map Prod.fst).Nodup) (hn2 : (d2.map Prod.fst).Nodup) :
    sortOrd keyLe d1 = sortOrd keyLe d2 := by
  have hd1 : d1.Nodup := hn1.of_map
  have hd2 : d2.Nodup := hn2.of_map
  have hperm : d1.Perm d2 :=
    (List.perm_ext_iff_of_nodup hd1 hd2).mpr (fun x => ⟨h12 x, h21 x⟩)
  have hperm' : (sortOrd keyLe d1).Perm (sortOrd keyLe d2) :=
    ((perm_sortOrd keyLe d1).trans hperm).trans (perm_sortOrd keyLe d2).symm
  have htot : ∀ x y : String × α, keyLe x y = true ∨ keyLe y x = true :=
    fun x y => charListLe_total _ _
  have htrans : ∀ x y z : String × α,
      keyLe x y = true → keyLe y z = true → keyLe x z = true :=
    fun x y z => charListLe_trans _ _ _
  have hp1 := pairwise_sortOrd htot htrans d1
  have hp2 := pairwise_sortOrd htot htrans d2
  have hk1 : ((sortOrd keyLe d1).map Prod.fst).Nodup :=
    hn1.perm ((perm_sortOrd keyLe d1).map Prod.fst).symm
  have hk2 : ((sortOrd keyLe d2).map Prod.fst).Nodup :=
    hn2.perm ((perm_sortOrd keyLe d2).map Prod.fst).symm
  have hne1 : List.Pairwise (fun x y : String × α => x.1 ≠ y.1) (sortOrd keyLe d1) :=
    List.pairwise_map.mp hk1
  have hne2 : List.Pairwise (fun x y : String × α => x.1 ≠ y.1) (sortOrd keyLe d2) :=
    List.pairwise_map.mp hk2
  have hs1 : List.Pairwise (fun x y : String × α => keyLe x y = true ∧ x.1 ≠ y.1)
      (sortOrd keyLe d1) := hp1.and hne1
  have hs2 : List.Pairwise (fun x y : String × α => keyLe x y = true ∧ x.1 ≠ y.1)
      (sortOrd keyLe d2) := hp2.and hne2
  haveI : IsAntisymm (String × α) (fun x y => keyLe x y = true ∧ x.1 ≠ y.1) := ⟨by
    intro a b hab hba
    exact absurd (pyStrLe_antisymm hab.1 hba.1) hab.2⟩
  exact List.eq_of_perm_of_sorted hperm' hs1 hs2

theorem StepIR_to_dict_equiv {a b : StepIR} (h : StepIR.IREquiv a b) :
    StepIR.to_dict a = StepIR.to_dict b := by
  obtain ⟨hk, hs, h12, h21, hn1, hn2⟩ := h
  unfold StepIR.to_dict
  rw [hk, hs, sortOrd_keyLe_eq h12 h21 hn1 hn2]

theorem map_to_dict_forall₂ {l1 l2 : List StepIR}
    (h : List.Forall₂ StepIR.IREquiv l1 l2) :
    l1.map StepIR.to_dict = l2.map StepIR.to_dict := by
  induction h with
  | nil => rfl
  | cons hab _ ih => simp [StepIR_to_dict_equiv hab, ih]

theorem ScenarioIR_to_dict_equiv {a b : ScenarioIR} (h : ScenarioIR.IREquiv a b) :
    ScenarioIR.to_dict a = ScenarioIR.to_dict b := by
  obtain ⟨hn, hi, hg, hw, ht⟩ := h
  unfold ScenarioIR.to_dict
  rw [hn, hi, map_to_dict_forall₂ hg, map_to_dict_forall₂ hw, map_to_dict_forall₂ ht]

theorem map_scenario_to_dict_forall₂ {l1 l2 : List ScenarioIR}
    (h : List.Forall₂ ScenarioIR.IREquiv l1 l2) :
    l1.map ScenarioIR.to_dict = l2.map ScenarioIR.to_dict := by
  induction h with
  | nil => rfl
  | cons hab _ ih => simp [ScenarioIR_to_dict_equiv hab, ih]

theorem FeatureIR_to_dict_equiv {a b : FeatureIR} (h : FeatureIR.IREquiv a b) :
    FeatureIR.to_dict a = FeatureIR.to_dict b := by
  obtain ⟨hf, hs⟩ := h
  unfold FeatureIR.to_dict
  rw [hf, map_scenario_to_dict_forall₂ hs]

set_option maxRecDepth 40000 in

/-- Claim C9 (counterexample): two FeatureIR values that are equal as
Python values (`True == 1` makes their args dicts `==`) serialize to
different JSON bytes (`true` vs `1`), so byte-identical output is not
guaranteed for every pair of `==`-equal FeatureIR values. -/
theorem c9_python_eq_refuted :
    FeatureIR.pyEq c9_fi1 c9_fi2 = true ∧
    serialize_ir_json c9_fi1 = .ok c9_json1 ∧
    serialize_ir_json c9_fi2 = .ok c9_json2 ∧
    c9_json1 ≠ c9_json2 := by
  refine ⟨by decide, by decide, by decide, by decide⟩

/-- Claim C9 (amended): serialization is deterministic for FeatureIR
values equal up to args-dict insertion order (same-typed values):
`to_dict` and the serialized JSON text agree byte-for-byte, every
step's args mapping is emitted sorted by key, and parsing identical
input text twice under one vocabulary serializes identically.  The only
failing case of the original claim is Python's cross-type numeric
equality (`c9_python_eq_refuted`). -/
theorem c9_serialization_deterministic (a b : FeatureIR)
    (h : FeatureIR.IREquiv a b) :
    serialize_ir_json a = serialize_ir_json b ∧
    FeatureIR.to_dict a = FeatureIR.to_dict b ∧
    (∀ step : StepIR,
      List.Pairwise (fun x y : String × PyValue => pyStrLe x.1 y.1 = true)
        (sortOrd keyLe step.args)) ∧
    (∀ path₁ path₂ text₁ text₂ (vocab : Vocab), path₁ = path₂ → text₁ = text₂ →
      ((parse_gwt path₁ text₁ vocab).bind fun ir => serialize_ir_json ir)
        = ((parse_gwt path₂ text₂ vocab).bind fun ir => serialize_ir_json ir)) := by
  have htd : FeatureIR.to_dict a = FeatureIR.to_dict b := FeatureIR_to_dict_equiv h
  refine ⟨?_, htd, ?_, ?_⟩
  · unfold serialize_ir_json
    rw [htd]
  · intro step
    exact pairwise_sortOrd (fun x y => charListLe_total x.1.data y.1.data)
      (fun x y z => charListLe_trans x.1.data y.1.data z.1.data) step.args
  · intro p1 p2 t1 t2 vocab hp ht
    rw [hp, ht]

/-- Witness for `c9_serialization_deterministic` on two concrete
FeatureIR values whose args dicts are permutations of each other. -/
theorem c9_serialization_deterministic_witness :
    serialize_ir_json c9_wa = serialize_ir_json c9_wb ∧
    FeatureIR.to_dict c9_wa = FeatureIR.to_dict c9_wb ∧
    (∀ step : StepIR,
      List.Pairwise (fun x y : String × PyValue => pyStrLe x.1 y.1 = true)
        (sortOrd keyLe step.args)) ∧
    (∀ path₁ path₂ text₁ text₂ (vocab : Vocab), path₁ = path₂ → text₁ = text₂ →
      ((parse_gwt path₁ text₁ vocab).bind fun ir => serialize_ir_json ir)
        = ((parse_gwt path₂ text₂ vocab).bind fun ir => serialize_ir_json ir)) :=
  c9_serialization_deterministic c9_wa c9_wb
    ⟨rfl, List.Forall₂.cons
      ⟨rfl, rfl, List.Forall₂.cons
          ⟨rfl, rfl, by unfold argsEquiv; exact ⟨by decide, by decide, by decide, by decide⟩⟩
          List.Forall₂.nil,
        List.Forall₂.nil, List.Forall₂.nil⟩
      List.Forall₂.nil⟩

end SpecEng

